import Mathlib

/-!
Shallow embedding of the genetic flight-optimisation engine of
`conclave.py` (class `AlgoritmoGenetico`), with proofs about the claims of
the specification.

Modelling conventions:
* Python floats are modelled by exact rationals (`ℚ`), `datetime` instants
  by integers (seconds); `total_seconds() / 3600` becomes an exact
  rational division by 3600.
* Every use of the `random` module is an explicit oracle argument:
  `random.random()` draws are rationals `r` (realizable outcomes satisfy
  `0 ≤ r < 1`), `random.choice` picks are arbitrary indices reduced modulo
  the list length, and `random.randint` / `random.sample` outcomes are
  passed in directly, with their range constraints stated as hypotheses
  where a theorem needs them.
* Fallible Python operations are modelled with `Option`: `none` stands for
  an exception reaching that point (IndexError on out-of-range list
  indexing/assignment, ValueError from `random.randint` with an empty
  range or from `max`/`min`/`random.sample` misuse, or an explicit
  `raise`).  `executar` catches only the `ValueError` of
  `gerar_populacao_inicial`; everywhere else `none` propagates.
* The comparison `pai1 == pai2` in `evoluir_geracao` is Python object
  identity; the model uses structural equality, which is equivalent for
  the populations considered here (the oracle quantification makes all
  theorems insensitive to this choice, and the concrete runs below use
  populations where the two notions coincide).
-/

namespace Conclave

attribute [local semireducible] Rat.add Rat.mul Rat.sub Rat.inv

/-- A flight (`class Voo`): origin, destination, departure and arrival
instants (in seconds), and price. -/
structure Voo where
  origem : String
  destino : String
  horario_saida : Int
  horario_chegada : Int
  preco : ℚ
deriving DecidableEq, Inhabited

/-- A traveller (`class Pessoa`) with the menus of outbound and return
flights available to them. -/
structure Pessoa where
  nome : String
  origem_cidade : String
  voos_ida : List Voo
  voos_volta : List Voo
deriving DecidableEq, Inhabited

/-- A candidate solution (`class Cromossomo`): one chosen outbound and one
chosen return flight per person, plus the cached fitness (0 on
construction). -/
structure Cromossomo where
  voos_ida : List Voo
  voos_volta : List Voo
  fitness : ℚ
deriving DecidableEq, Inhabited

/-- The engine configuration (the constructor parameters of
`AlgoritmoGenetico` that the core search loop reads). -/
structure AlgoritmoGenetico where
  pessoas : List Pessoa
  tamanho_populacao : Nat
  taxa_mutacao : ℚ
  taxa_elite : ℚ
  geracoes_sem_melhoria_max : Nat
  peso_custo : ℚ
  peso_gap_chegada : ℚ
  peso_gap_saida : ℚ
deriving Inhabited

/-- Exact rational division in an executable form (`mkRat` normalises;
`divQ_eq_div` below identifies it with field division on `ℚ`).  The
quotient notation of `ℚ` itself is avoided inside the executable
definitions only because its `Rat.inv` is irreducible to the
elaborator. -/
def divQ (a b : ℚ) : ℚ :=
  mkRat (a.num * Int.sign b.num * (b.den : Int)) (a.den * b.num.natAbs)

/-- Python `min` over a list of instants; the `[]` case (where Python
would raise) is guarded at every call site. -/
def listMin : List Int → Int
  | [] => 0
  | x :: xs => xs.foldl min x

/-- Python `max` over a list of instants; the `[]` case is guarded at
every call site. -/
def listMax : List Int → Int
  | [] => 0
  | x :: xs => xs.foldl max x

/-- Total price of all chosen flights of a candidate
(`sum(voo.preco for voo in voos_ida + voos_volta)`). -/
def custoTotal (c : Cromossomo) : ℚ :=
  ((c.voos_ida ++ c.voos_volta).map Voo.preco).sum

/-- The fitness function `calcular_fitness`. -/
def calcular_fitness (ag : AlgoritmoGenetico) (c : Cromossomo) : ℚ :=
  if c.voos_ida = [] ∨ c.voos_volta = [] then -1000000000
  else
    let custo_total := ((c.voos_ida ++ c.voos_volta).map Voo.preco).sum
    let horarios_chegada_ida := c.voos_ida.map Voo.horario_chegada
    let gap_chegada_ida : ℚ :=
      divQ ((listMax horarios_chegada_ida - listMin horarios_chegada_ida : Int) : ℚ) 3600
    let horarios_saida_volta := c.voos_volta.map Voo.horario_saida
    let gap_saida_volta : ℚ :=
      divQ ((listMax horarios_saida_volta - listMin horarios_saida_volta : Int) : ℚ) 3600
    let fitness :=
      -(ag.peso_custo * custo_total + ag.peso_gap_chegada * gap_chegada_ida +
        ag.peso_gap_saida * gap_saida_volta)
    fitness

/-- The evaluation pass `avaliar_populacao`: store `calcular_fitness` in
every candidate's `fitness` field. -/
def avaliar_populacao (ag : AlgoritmoGenetico) (pop : List Cromossomo) : List Cromossomo :=
  pop.map (fun c => { c with fitness := calcular_fitness ag c })

/-- Python `max(populacao, key=lambda x: x.fitness)`: the first candidate
with maximal fitness; `none` models the ValueError on an empty
population. -/
def melhorCromossomo : List Cromossomo → Option Cromossomo
  | [] => none
  | x :: xs => some (xs.foldl (fun acc c => if acc.fitness < c.fitness then c else acc) x)

/-- The accumulator step of `melhorCromossomo` (the comparison
`max(..., key=lambda x: x.fitness)` performs), named for the proofs. -/
def escolheMelhor (acc c : Cromossomo) : Cromossomo :=
  if acc.fitness < c.fitness then c else acc

/-- Fallback flight for total modelling of guarded indexing. -/
def vooPadrao : Voo := default

/-- Model of `random.choice l`: an arbitrary oracle index reduced modulo
the list length.  All call sites guard against empty lists. -/
def escolha (l : List Voo) (k : Nat) : Voo := l.getD (k % l.length) vooPadrao

/-- Python list assignment `l[i] = x`: `none` models the IndexError when
`i` is out of range. -/
def listSet? (l : List α) (i : Nat) (x : α) : Option (List α) :=
  if i < l.length then some (l.set i x) else none

/-- One insertion step of the stable descending-by-fitness sort. -/
def insereDesc (x : Cromossomo) : List Cromossomo → List Cromossomo
  | [] => [x]
  | y :: ys => if x.fitness ≤ y.fitness then y :: insereDesc x ys else x :: y :: ys

/-- Python `populacao.sort(key=lambda x: x.fitness, reverse=True)`: a
stable sort by fitness, descending. -/
def ordenaDesc : List Cromossomo → List Cromossomo
  | [] => []
  | x :: xs => insereDesc x (ordenaDesc xs)

/-- Oracle for one call of `selecao_torneio`: the indices drawn by
`random.sample`, the `random.random()` draw against `taxa_nao_melhor`, and
the `random.choice` index over the non-best competitors. -/
structure SelOraculo where
  amostra : List Nat
  r : ℚ
  k : Nat

/-- Tournament selection `selecao_torneio` with the default parameters
`tamanho_torneio=3`, `taxa_nao_melhor=0.05` used by `evoluir_geracao`. -/
def selecao_torneio (pop : List Cromossomo) (o : SelOraculo) : Option Cromossomo :=
  if pop.length < 2 then pop[0]?
  else
    let tamanho_torneio := min 3 pop.length
    let competidores := (o.amostra.take tamanho_torneio).filterMap (fun i => pop[i]?)
    let ordenados := ordenaDesc competidores
    if o.r < mkRat 1 20 then
      if ordenados.length > 1 then (ordenados.drop 1)[o.k % (ordenados.length - 1)]?
      else ordenados[0]?
    else ordenados[0]?

/-- The five crossover strategies of the Recombiner, as dispatched by
`evoluir_geracao`. -/
inductive TipoCruzamento where
  | ponto_unico | dois_pontos | uniforme | custo | horario
deriving DecidableEq

/-- Oracle for one crossover call: the `random.randint` cut of
single-point crossover, the two sorted `random.sample` cuts of two-point
crossover, and the per-position `random.random()` coin draws of the
uniform / schedule-based strategies. -/
structure CruzOraculo where
  ponto_corte : Nat
  ponto1 : Nat
  ponto2 : Nat
  moedas : Nat → ℚ

/-- The empty candidate `Cromossomo([], [])` returned on degenerate
inputs. -/
def cromossomoVazio : Cromossomo := ⟨[], [], 0⟩

/-- Single-point crossover `cruzamento_ponto_unico`.  With one gene the
source calls `random.randint(1, 0)`, which raises ValueError: that is the
`none` branch. -/
def cruzamento_ponto_unico (pai1 pai2 : Cromossomo) (ponto_corte : Nat) :
    Option (Cromossomo × Cromossomo) :=
  let n_genes := pai1.voos_ida.length
  if n_genes = 0 then some (cromossomoVazio, cromossomoVazio)
  else if n_genes = 1 then none
  else
    some (⟨pai1.voos_ida.take ponto_corte ++ pai2.voos_ida.drop ponto_corte,
           pai1.voos_volta.take ponto_corte ++ pai2.voos_volta.drop ponto_corte, 0⟩,
          ⟨pai2.voos_ida.take ponto_corte ++ pai1.voos_ida.drop ponto_corte,
           pai2.voos_volta.take ponto_corte ++ pai1.voos_volta.drop ponto_corte, 0⟩)

/-- Python slice `l[a:b]` for `0 ≤ a ≤ b`. -/
def fatia (l : List Voo) (a b : Nat) : List Voo := (l.drop a).take (b - a)

/-- Two-point crossover `cruzamento_dois_pontos`; with fewer than three
genes it falls back to single-point crossover. -/
def cruzamento_dois_pontos (pai1 pai2 : Cromossomo) (o : CruzOraculo) :
    Option (Cromossomo × Cromossomo) :=
  let n_genes := pai1.voos_ida.length
  if n_genes < 3 then cruzamento_ponto_unico pai1 pai2 o.ponto_corte
  else
    some (⟨pai1.voos_ida.take o.ponto1 ++ fatia pai2.voos_ida o.ponto1 o.ponto2 ++
             pai1.voos_ida.drop o.ponto2,
           pai1.voos_volta.take o.ponto1 ++ fatia pai2.voos_volta o.ponto1 o.ponto2 ++
             pai1.voos_volta.drop o.ponto2, 0⟩,
          ⟨pai2.voos_ida.take o.ponto1 ++ fatia pai1.voos_ida o.ponto1 o.ponto2 ++
             pai2.voos_ida.drop o.ponto2,
           pai2.voos_volta.take o.ponto1 ++ fatia pai1.voos_volta o.ponto1 o.ponto2 ++
             pai2.voos_volta.drop o.ponto2, 0⟩)

/-- The per-position gene loop shared by uniform crossover (for each leg)
and the return leg of `cruzamento_baseado_horario`: at position `i` the
pair of children receives the parents' genes straight or swapped
according to the coin draw at `i`.  `none` models an IndexError when one
of the parents is shorter than the gene count. -/
def escolheUniforme (a b : List Voo) (moedas : Nat → ℚ) :
    Nat → Nat → Option (List Voo × List Voo)
  | _, 0 => some ([], [])
  | i, n+1 =>
      match a[i]?, b[i]? with
      | some x, some y =>
          match escolheUniforme a b moedas (i+1) n with
          | some (l1, l2) =>
              some (if moedas i < mkRat 1 2 then (x :: l1, y :: l2) else (y :: l1, x :: l2))
          | none => none
      | _, _ => none

/-- Uniform crossover `cruzamento_uniforme`: one coin per position, reused
for the outbound and return genes at that position. -/
def cruzamento_uniforme (pai1 pai2 : Cromossomo) (moedas : Nat → ℚ) :
    Option (Cromossomo × Cromossomo) :=
  let n_genes := pai1.voos_ida.length
  if n_genes = 0 then some (cromossomoVazio, cromossomoVazio)
  else
    match escolheUniforme pai1.voos_ida pai2.voos_ida moedas 0 n_genes with
    | none => none
    | some (f1i, f2i) =>
        match escolheUniforme pai1.voos_volta pai2.voos_volta moedas 0 n_genes with
        | none => none
        | some (f1v, f2v) => some (⟨f1i, f1v, 0⟩, ⟨f2i, f2v, 0⟩)

/-- The per-position, per-leg loop of `cruzamento_baseado_custo`: child 1
receives whichever parent's gene is cheaper (ties to parent 1), child 2
the other. -/
def escolheBarato (a b : List Voo) : Nat → Nat → Option (List Voo × List Voo)
  | _, 0 => some ([], [])
  | i, n+1 =>
      match a[i]?, b[i]? with
      | some x, some y =>
          match escolheBarato a b (i+1) n with
          | some (l1, l2) =>
              some (if x.preco ≤ y.preco then (x :: l1, y :: l2) else (y :: l1, x :: l2))
          | none => none
      | _, _ => none

/-- Cost-greedy crossover `cruzamento_baseado_custo`. -/
def cruzamento_baseado_custo (pai1 pai2 : Cromossomo) :
    Option (Cromossomo × Cromossomo) :=
  let n_genes := pai1.voos_ida.length
  if n_genes = 0 then some (cromossomoVazio, cromossomoVazio)
  else
    match escolheBarato pai1.voos_ida pai2.voos_ida 0 n_genes with
    | none => none
    | some (f1i, f2i) =>
        match escolheBarato pai1.voos_volta pai2.voos_volta 0 n_genes with
        | none => none
        | some (f1v, f2v) => some (⟨f1i, f1v, 0⟩, ⟨f2i, f2v, 0⟩)

/-- Schedule-based crossover `cruzamento_baseado_horario`: the outbound
sequences go whole to the children, the parent with the smaller arrival
span donating to child 1; the return genes are produced by a uniform
crossover loop. -/
def cruzamento_baseado_horario (pai1 pai2 : Cromossomo) (moedas : Nat → ℚ) :
    Option (Cromossomo × Cromossomo) :=
  let n_genes := pai1.voos_ida.length
  if n_genes = 0 then some (cromossomoVazio, cromossomoVazio)
  else
    let horarios_chegada_pai1 := pai1.voos_ida.map Voo.horario_chegada
    let horarios_chegada_pai2 := pai2.voos_ida.map Voo.horario_chegada
    if horarios_chegada_pai1 = [] ∨ horarios_chegada_pai2 = [] then
      cruzamento_uniforme pai1 pai2 moedas
    else
      let span_pai1 : ℚ :=
        divQ ((listMax horarios_chegada_pai1 - listMin horarios_chegada_pai1 : Int) : ℚ) 3600
      let span_pai2 : ℚ :=
        divQ ((listMax horarios_chegada_pai2 - listMin horarios_chegada_pai2 : Int) : ℚ) 3600
      let idas := if span_pai1 ≤ span_pai2 then (pai1.voos_ida, pai2.voos_ida)
                  else (pai2.voos_ida, pai1.voos_ida)
      match escolheUniforme pai1.voos_volta pai2.voos_volta moedas 0 n_genes with
      | none => none
      | some (f1v, f2v) => some (⟨idas.1, f1v, 0⟩, ⟨idas.2, f2v, 0⟩)

/-- The crossover dispatch of `evoluir_geracao` over the five strategy
tags. -/
def cruzamento (tipo : TipoCruzamento) (pai1 pai2 : Cromossomo) (o : CruzOraculo) :
    Option (Cromossomo × Cromossomo) :=
  match tipo with
  | .ponto_unico => cruzamento_ponto_unico pai1 pai2 o.ponto_corte
  | .dois_pontos => cruzamento_dois_pontos pai1 pai2 o
  | .uniforme => cruzamento_uniforme pai1 pai2 o.moedas
  | .custo => cruzamento_baseado_custo pai1 pai2
  | .horario => cruzamento_baseado_horario pai1 pai2 o.moedas

/-- Oracle for one mutation call: the per-position `random.random()` draws
and `random.choice` indices of the uniform-random pass, plus the two 60%
draws and choice indices of the gap repairs of `mutacao_inteligente`. -/
structure MutOraculo where
  rIda : Nat → ℚ
  rVolta : Nat → ℚ
  cIda : Nat → Nat
  cVolta : Nat → Nat
  r1 : ℚ
  k1 : Nat
  r2 : ℚ
  k2 : Nat

/-- One position of the uniform-random mutation loop: with the given rate,
replace the outbound and/or return gene at `i` by a random member of
person `i`'s menu.  `pessoas[i]` is read unconditionally (IndexError when
out of range), and gene assignment is out-of-range-checked like the
Python list assignment. -/
def mutacaoPasso (taxa : ℚ) (pessoas : List Pessoa) (o : MutOraculo)
    (c : Cromossomo) (i : Nat) : Option Cromossomo :=
  match pessoas[i]? with
  | none => none
  | some pessoa_associada =>
    match (if o.rIda i < taxa then
             if pessoa_associada.voos_ida = [] then some c
             else (listSet? c.voos_ida i (escolha pessoa_associada.voos_ida (o.cIda i))).map
                    (fun l => { c with voos_ida := l })
           else some c) with
    | none => none
    | some c1 =>
        if o.rVolta i < taxa then
          if pessoa_associada.voos_volta = [] then some c1
          else (listSet? c1.voos_volta i (escolha pessoa_associada.voos_volta (o.cVolta i))).map
                 (fun l => { c1 with voos_volta := l })
        else some c1

/-- The loop `for i in range(len(novo_cromossomo.voos_ida))` of the
uniform-random mutation pass. -/
def mutacaoLaco (taxa : ℚ) (pessoas : List Pessoa) (o : MutOraculo) :
    Nat → Nat → Cromossomo → Option Cromossomo
  | _, 0, c => some c
  | i, n+1, c =>
      match mutacaoPasso taxa pessoas o c i with
      | none => none
      | some c' => mutacaoLaco taxa pessoas o (i+1) n c'

/-- Traditional mutation `mutacao_tradicional` (the deep copy is value
semantics here). -/
def mutacao_tradicional (taxa : ℚ) (pessoas : List Pessoa) (o : MutOraculo)
    (c : Cromossomo) : Option Cromossomo :=
  mutacaoLaco taxa pessoas o 0 c.voos_ida.length c

/-- Strategy 1 of `mutacao_inteligente`: when the arrival spread of the
ORIGINAL candidate `cromossomo` exceeds one hour, with probability 60%
replace the latest-arriving person's outbound gene of the copy `novo`
with a random strictly-earlier option of that person's own menu (no
change when no such option exists). -/
def reparoIda (pessoas : List Pessoa) (o : MutOraculo) (cromossomo novo : Cromossomo) :
    Option Cromossomo :=
  let horarios_chegada_ida := cromossomo.voos_ida.map Voo.horario_chegada
  if 1 < horarios_chegada_ida.length then
    let primeiro_chegada := listMin horarios_chegada_ida
    let ultimo_chegada := listMax horarios_chegada_ida
    if divQ ((ultimo_chegada - primeiro_chegada : Int) : ℚ) 3600 > 1 then
      let idx_mais_tarde := horarios_chegada_ida.indexOf ultimo_chegada
      match pessoas[idx_mais_tarde]? with
      | none => none
      | some pessoa_alvo =>
        let voos_alternativos_ida := pessoa_alvo.voos_ida.filter
          (fun v => v.horario_chegada < ultimo_chegada)
        if voos_alternativos_ida = [] then some novo
        else if o.r1 < mkRat 3 5 then
          (listSet? novo.voos_ida idx_mais_tarde (escolha voos_alternativos_ida o.k1)).map
            (fun l => { novo with voos_ida := l })
        else some novo
    else some novo
  else some novo

/-- Strategy 2 of `mutacao_inteligente`: the symmetric repair on the
return leg, moving the earliest-departing person to a strictly later
option; the spread is again read from the ORIGINAL candidate. -/
def reparoVolta (pessoas : List Pessoa) (o : MutOraculo) (cromossomo novo : Cromossomo) :
    Option Cromossomo :=
  let horarios_saida_volta := cromossomo.voos_volta.map Voo.horario_saida
  if 1 < horarios_saida_volta.length then
    let primeiro_saida := listMin horarios_saida_volta
    let ultimo_saida := listMax horarios_saida_volta
    if divQ ((ultimo_saida - primeiro_saida : Int) : ℚ) 3600 > 1 then
      let idx_mais_cedo := horarios_saida_volta.indexOf primeiro_saida
      match pessoas[idx_mais_cedo]? with
      | none => none
      | some pessoa_alvo =>
        let voos_alternativos_volta := pessoa_alvo.voos_volta.filter
          (fun v => primeiro_saida < v.horario_saida)
        if voos_alternativos_volta = [] then some novo
        else if o.r2 < mkRat 3 5 then
          (listSet? novo.voos_volta idx_mais_cedo (escolha voos_alternativos_volta o.k2)).map
            (fun l => { novo with voos_volta := l })
        else some novo
    else some novo
  else some novo

/-- Gap-directed mutation `mutacao_inteligente`: the outbound repair, the
return repair (both gated on a span above one hour and a 60% draw, and
independent of `taxa`), then the low-intensity uniform pass at rate
`taxa * 0.2`. -/
def mutacao_inteligente (taxa : ℚ) (pessoas : List Pessoa) (o : MutOraculo)
    (c : Cromossomo) : Option Cromossomo :=
  if pessoas = [] then some c
  else
    match reparoIda pessoas o c c with
    | none => none
    | some c1 =>
        match reparoVolta pessoas o c c1 with
        | none => none
        | some c2 => mutacaoLaco (taxa * mkRat 1 5) pessoas o 0 c2.voos_ida.length c2

/-- The elite count `int(self.taxa_elite * self.tamanho_populacao)`
(truncation coincides with the floor for the nonnegative rates used). -/
def elite_size (ag : AlgoritmoGenetico) : Nat :=
  (⌊ag.taxa_elite * (ag.tamanho_populacao : ℚ)⌋).toNat

/-- Oracles for one iteration of the fill loop of `evoluir_geracao`: two
parent selections, the re-selection when both parents coincide, the
crossover oracle, and one mutation oracle per child. -/
structure IterOraculo where
  s1 : SelOraculo
  s2 : SelOraculo
  s2b : SelOraculo
  cz : CruzOraculo
  m1 : MutOraculo
  m2 : MutOraculo

/-- The `while len(nova_populacao) < tamanho_populacao` fill loop of
`evoluir_geracao`.  `pop` is the sorted population that selection samples
from; the fuel (first `Nat`) never runs out in the calls below because
each iteration appends two children. -/
def evoluirLaco (ag : AlgoritmoGenetico) (tipo : TipoCruzamento)
    (usar_mutacao_inteligente : Bool) (orac : Nat → IterOraculo)
    (pop : List Cromossomo) :
    Nat → Nat → List Cromossomo → Option (List Cromossomo)
  | 0, _, nova => some nova
  | fuel+1, it, nova =>
    if nova.length < ag.tamanho_populacao then
      match selecao_torneio pop (orac it).s1, selecao_torneio pop (orac it).s2 with
      | some pai1, some pai2 =>
          match (if pai1 = pai2 ∧ 1 < pop.length then selecao_torneio pop (orac it).s2b
                 else some pai2) with
          | none => none
          | some pai2' =>
            match cruzamento tipo pai1 pai2' (orac it).cz with
            | none => none
            | some (filho1, filho2) =>
              match (if usar_mutacao_inteligente then
                       mutacao_inteligente ag.taxa_mutacao ag.pessoas (orac it).m1 filho1
                     else mutacao_tradicional ag.taxa_mutacao ag.pessoas (orac it).m1 filho1) with
              | none => none
              | some filho1' =>
                match (if usar_mutacao_inteligente then
                         mutacao_inteligente ag.taxa_mutacao ag.pessoas (orac it).m2 filho2
                       else mutacao_tradicional ag.taxa_mutacao ag.pessoas (orac it).m2 filho2) with
                | none => none
                | some filho2' =>
                    evoluirLaco ag tipo usar_mutacao_inteligente orac pop fuel (it+1)
                      (nova ++ [filho1', filho2'])
      | _, _ => some nova
    else some nova

/-- Generational replacement `evoluir_geracao`: sort the population by
fitness descending in place (selection then samples from the sorted
list), carry the elite over, fill with mutated crossover children, and
truncate to the population size. -/
def evoluir_geracao (ag : AlgoritmoGenetico) (tipo : TipoCruzamento)
    (usar_mutacao_inteligente : Bool) (orac : Nat → IterOraculo)
    (pop : List Cromossomo) : Option (List Cromossomo) :=
  let ordenada := ordenaDesc pop
  let nova := ordenada.take (elite_size ag)
  match evoluirLaco ag tipo usar_mutacao_inteligente orac ordenada
      ag.tamanho_populacao 0 nova with
  | none => none
  | some nova_populacao => some (nova_populacao.take ag.tamanho_populacao)

/-- The statistical-convergence stopping test `criterio_parada_avancado`
(defaults `janela=20`, `tolerancia=0.001`). -/
def criterio_parada_avancado (historico_fitness : List ℚ) (janela : Nat)
    (tolerancia : ℚ) : Bool :=
  if historico_fitness.length < janela then false
  else
    let fitness_atual := historico_fitness.getD (historico_fitness.length - 1) 0
    let fitness_anterior := historico_fitness.getD (historico_fitness.length - janela) 0
    if |fitness_anterior| < mkRat 1 1000000000 then
      decide (|fitness_atual - fitness_anterior| < tolerancia * |fitness_anterior| + mkRat 1 1000000000)
    else
      decide (|divQ (fitness_atual - fitness_anterior) fitness_anterior| < tolerancia)

/-- The per-person flight draws of one initial candidate; `none` models
the explicit `raise ValueError` on a person with an empty outbound or
return menu. -/
def escolheVoosIniciais (fIda fVolta : Nat → Nat) :
    Nat → List Pessoa → Option (List Voo × List Voo)
  | _, [] => some ([], [])
  | i, pessoa :: resto =>
      if pessoa.voos_ida = [] then none
      else if pessoa.voos_volta = [] then none
      else
        match escolheVoosIniciais fIda fVolta (i+1) resto with
        | none => none
        | some (idas, voltas) =>
            some (escolha pessoa.voos_ida (fIda i) :: idas,
                  escolha pessoa.voos_volta (fVolta i) :: voltas)

/-- The `for _ in range(tamanho_populacao)` loop of
`gerar_populacao_inicial`, building one candidate per iteration. -/
def gerarLaco (pessoas : List Pessoa) (fIda fVolta : Nat → Nat → Nat) :
    Nat → Nat → Option (List Cromossomo)
  | _, 0 => some []
  | j, n+1 =>
      match escolheVoosIniciais (fIda j) (fVolta j) 0 pessoas with
      | none => none
      | some (idas, voltas) =>
          match gerarLaco pessoas fIda fVolta (j+1) n with
          | none => none
          | some resto => some ((⟨idas, voltas, 0⟩ : Cromossomo) :: resto)

/-- Population seeding `gerar_populacao_inicial`; `none` models an
escaped ValueError (no people, or a person with an empty menu found while
building a candidate). -/
def gerar_populacao_inicial (ag : AlgoritmoGenetico) (fIda fVolta : Nat → Nat → Nat) :
    Option (List Cromossomo) :=
  if ag.pessoas = [] then none
  else gerarLaco ag.pessoas fIda fVolta 0 ag.tamanho_populacao

/-- What `executar` returns: the best candidate (`None` when seeding
failed), the two histories, and the engine's final no-improvement counter
(the attribute `self.geracoes_sem_melhoria`). -/
structure ExecResultado where
  melhor : Option Cromossomo
  historico_fitness : List ℚ
  historico_custo : List ℚ
  geracoes_sem_melhoria : Nat
deriving DecidableEq

/-- The full state when the generation loop of `executar` stops. -/
structure LacoSaida where
  populacao : List Cromossomo
  melhor_fitness : Option ℚ
  geracoes_sem_melhoria : Nat
  historico_fitness : List ℚ
  historico_custo : List ℚ

/-- Comparison of a generation best against `self.melhor_fitness`, whose
initial value `float('-inf')` is modelled by `none`. -/
def melhorou (fit : ℚ) : Option ℚ → Bool
  | none => true
  | some m => decide (m < fit)

/-- All random draws of one run: the seeding choices (per candidate, per
person) and the per-generation, per-iteration oracles of the evolution
loop. -/
structure ExecOraculo where
  gerIda : Nat → Nat → Nat
  gerVolta : Nat → Nat → Nat
  evo : Nat → Nat → IterOraculo

/-- The `for geracao in range(max_geracoes)` loop of `executar`: evaluate,
record history, update best-seen and the no-improvement counter, test the
two stopping criteria, evolve.  `none` models an uncaught exception
(`max` on an empty population, or one escaping `evoluir_geracao`). -/
def executarLaco (ag : AlgoritmoGenetico) (tipo : TipoCruzamento)
    (usar_mutacao_inteligente : Bool) (orac : ExecOraculo) :
    Nat → Nat → List Cromossomo → Option ℚ → Nat → List ℚ → List ℚ → Option LacoSaida
  | 0, _, pop, melhor, sem, hf, hc => some ⟨pop, melhor, sem, hf, hc⟩
  | fuel+1, geracao, pop, melhor, sem, hf, hc =>
    let popA := avaliar_populacao ag pop
    match melhorCromossomo popA with
    | none => none
    | some melhor_atual =>
      let hf' := hf ++ [melhor_atual.fitness]
      let hc' := hc ++ [custoTotal melhor_atual]
      let melhor' := if melhorou melhor_atual.fitness melhor then some melhor_atual.fitness
                     else melhor
      let sem' := if melhorou melhor_atual.fitness melhor then 0 else sem + 1
      if criterio_parada_avancado hf' 20 (mkRat 1 1000) then some ⟨popA, melhor', sem', hf', hc'⟩
      else if ag.geracoes_sem_melhoria_max ≤ sem' then some ⟨popA, melhor', sem', hf', hc'⟩
      else
        match evoluir_geracao ag tipo usar_mutacao_inteligente (orac.evo geracao) popA with
        | none => none
        | some pop' =>
            executarLaco ag tipo usar_mutacao_inteligente orac fuel (geracao+1) pop'
              melhor' sem' hf' hc'

/-- The driver `executar`: seed (returning `(None, empty histories)` on a
configuration error), run the generation loop, then one final evaluation
pass and return the best candidate of the final population with the
histories. -/
def executar (ag : AlgoritmoGenetico) (max_geracoes : Nat) (tipo : TipoCruzamento)
    (usar_mutacao_inteligente : Bool) (orac : ExecOraculo) : Option ExecResultado :=
  if ag.pessoas = [] then some ⟨none, [], [], 0⟩
  else
    match gerar_populacao_inicial ag orac.gerIda orac.gerVolta with
    | none => some ⟨none, [], [], 0⟩
    | some pop0 =>
      match executarLaco ag tipo usar_mutacao_inteligente orac max_geracoes 0 pop0
          none 0 [] [] with
      | none => none
      | some saida =>
        match melhorCromossomo (avaliar_populacao ag saida.populacao) with
        | none => none
        | some melhor_solucao =>
          some ⟨some melhor_solucao, saida.historico_fitness, saida.historico_custo,
                saida.geracoes_sem_melhoria⟩

/-! ### Validity predicates for the spec's invariants -/

/-- Gene validity against a list of menus: one gene per menu, each gene a
member of the menu at its position. -/
def escolhasDoMenu (menus : List (List Voo)) (xs : List Voo) : Prop :=
  xs.length = menus.length ∧ ∀ i, i < xs.length → xs.getD i vooPadrao ∈ menus.getD i []

instance (menus : List (List Voo)) (xs : List Voo) : Decidable (escolhasDoMenu menus xs) := by
  unfold escolhasDoMenu; exact inferInstance

/-- The central data-model invariant: one outbound and one return gene per
person, each drawn from that person's menu for that leg. -/
def cromossomoValido (pessoas : List Pessoa) (c : Cromossomo) : Prop :=
  escolhasDoMenu (pessoas.map Pessoa.voos_ida) c.voos_ida ∧
  escolhasDoMenu (pessoas.map Pessoa.voos_volta) c.voos_volta

instance (pessoas : List Pessoa) (c : Cromossomo) : Decidable (cromossomoValido pessoas c) := by
  unfold cromossomoValido; exact inferInstance

/-- Validity of both children of a crossover result; an exception (`none`)
produces no children, so there is nothing to check. -/
def filhosValidos (pessoas : List Pessoa) : Option (Cromossomo × Cromossomo) → Prop
  | none => True
  | some (f1, f2) => cromossomoValido pessoas f1 ∧ cromossomoValido pessoas f2

instance (pessoas : List Pessoa) (r : Option (Cromossomo × Cromossomo)) :
    Decidable (filhosValidos pessoas r) :=
  match r with
  | none => isTrue trivial
  | some (f1, f2) =>
      inferInstanceAs (Decidable (cromossomoValido pessoas f1 ∧ cromossomoValido pessoas f2))

/-- Range constraints tying a crossover oracle to the outcomes that
`random.randint(1, n-1)` and `sorted(random.sample(range(1, n), 2))` can
produce for gene count `n`. -/
def oraculoCruzamentoOK (tipo : TipoCruzamento) (o : CruzOraculo) (n : Nat) : Prop :=
  match tipo with
  | .ponto_unico => 2 ≤ n → 1 ≤ o.ponto_corte ∧ o.ponto_corte ≤ n - 1
  | .dois_pontos => (2 ≤ n → 1 ≤ o.ponto_corte ∧ o.ponto_corte ≤ n - 1) ∧
      (3 ≤ n → 1 ≤ o.ponto1 ∧ o.ponto1 < o.ponto2 ∧ o.ponto2 ≤ n - 1)
  | .uniforme => True
  | .custo => True
  | .horario => True

instance (tipo : TipoCruzamento) (o : CruzOraculo) (n : Nat) :
    Decidable (oraculoCruzamentoOK tipo o n) := by
  unfold oraculoCruzamentoOK
  cases tipo <;> exact inferInstance

/-- Per-position closure of a mutated candidate against its pre-mutation
input: unchanged gene counts, each gene either the input's gene at that
position or a member of the right person's menu for that leg. -/
def genesFechados (pessoas : List Pessoa) (c c' : Cromossomo) : Prop :=
  c'.voos_ida.length = c.voos_ida.length ∧
  c'.voos_volta.length = c.voos_volta.length ∧
  (∀ i, i < c.voos_ida.length →
    c'.voos_ida.getD i vooPadrao = c.voos_ida.getD i vooPadrao ∨
    c'.voos_ida.getD i vooPadrao ∈ (pessoas.map Pessoa.voos_ida).getD i []) ∧
  (∀ i, i < c.voos_volta.length →
    c'.voos_volta.getD i vooPadrao = c.voos_volta.getD i vooPadrao ∨
    c'.voos_volta.getD i vooPadrao ∈ (pessoas.map Pessoa.voos_volta).getD i [])

instance (pessoas : List Pessoa) (c c' : Cromossomo) :
    Decidable (genesFechados pessoas c c') := by
  unfold genesFechados; exact inferInstance

/-- The mutation-closure property of a mutation result: the call returned
a candidate (no exception) and its genes are closed with respect to the
input. -/
def mutacaoFechada (pessoas : List Pessoa) (c : Cromossomo) : Option Cromossomo → Prop
  | none => False
  | some c' => genesFechados pessoas c c'

instance (pessoas : List Pessoa) (c : Cromossomo) (r : Option Cromossomo) :
    Decidable (mutacaoFechada pessoas c r) :=
  match r with
  | none => isFalse id
  | some c' => inferInstanceAs (Decidable (genesFechados pessoas c c'))

/-- The cost-greedy pairing property over one leg: at every position the
first child's option costs at most the second child's, and together the
two children carry exactly the two parents' options of that position. -/
def paresBaratos (a b l1 l2 : List Voo) : Prop :=
  ∀ i, i < a.length →
    (l1.getD i vooPadrao).preco ≤ (l2.getD i vooPadrao).preco ∧
    ((l1.getD i vooPadrao = a.getD i vooPadrao ∧ l2.getD i vooPadrao = b.getD i vooPadrao) ∨
     (l1.getD i vooPadrao = b.getD i vooPadrao ∧ l2.getD i vooPadrao = a.getD i vooPadrao))

instance (a b l1 l2 : List Voo) : Decidable (paresBaratos a b l1 l2) := by
  unfold paresBaratos; exact inferInstance

/-- The full specification of a `cruzamento_baseado_custo` result: it
produced two children (no exception), their gene counts match the
parents', and both legs satisfy the cost-greedy pairing property. -/
def custoGulosoOK (pai1 pai2 : Cromossomo) : Option (Cromossomo × Cromossomo) → Prop
  | none => False
  | some (f1, f2) =>
      f1.voos_ida.length = pai1.voos_ida.length ∧
      f2.voos_ida.length = pai1.voos_ida.length ∧
      f1.voos_volta.length = pai1.voos_volta.length ∧
      f2.voos_volta.length = pai1.voos_volta.length ∧
      paresBaratos pai1.voos_ida pai2.voos_ida f1.voos_ida f2.voos_ida ∧
      paresBaratos pai1.voos_volta pai2.voos_volta f1.voos_volta f2.voos_volta

instance (pai1 pai2 : Cromossomo) (r : Option (Cromossomo × Cromossomo)) :
    Decidable (custoGulosoOK pai1 pai2 r) :=
  match r with
  | none => isFalse id
  | some (f1, f2) =>
      inferInstanceAs (Decidable (f1.voos_ida.length = pai1.voos_ida.length ∧
        f2.voos_ida.length = pai1.voos_ida.length ∧
        f1.voos_volta.length = pai1.voos_volta.length ∧
        f2.voos_volta.length = pai1.voos_volta.length ∧
        paresBaratos pai1.voos_ida pai2.voos_ida f1.voos_ida f2.voos_ida ∧
        paresBaratos pai1.voos_volta pai2.voos_volta f1.voos_volta f2.voos_volta))

/-- The best fitness value of a population (0 on the empty population,
which the callers below rule out). -/
def melhorFitness (pop : List Cromossomo) : ℚ :=
  ((melhorCromossomo pop).map Cromossomo.fitness).getD 0

/-- Dominance of the returned best candidate over the fitness history;
when seeding failed there is no candidate and nothing to dominate. -/
def melhorDominaHistorico (res : ExecResultado) : Prop :=
  match res.melhor with
  | none => True
  | some b => ∀ q ∈ res.historico_fitness, q ≤ b.fitness

instance (res : ExecResultado) : Decidable (melhorDominaHistorico res) :=
  match h : res.melhor with
  | none => isTrue (by unfold melhorDominaHistorico; rw [h]; trivial)
  | some b =>
      decidable_of_iff (∀ q ∈ res.historico_fitness, q ≤ b.fitness)
        (by unfold melhorDominaHistorico; rw [h])

/-! ### Concrete flights, people, configurations and oracles used by the
witnesses and counterexamples below -/

def pessoaPadrao : Pessoa := default

def vooBarato : Voo := ⟨"MAD", "FCO", 36000, 41400, 100⟩

def vooCaro : Voo := ⟨"MAD", "FCO", 37000, 42000, 1000⟩

def vooTarde : Voo := ⟨"LIS", "FCO", 43000, 50400, 150⟩

def vooCedo : Voo := ⟨"LIS", "FCO", 36000, 39600, 180⟩

def vooVolta : Voo := ⟨"FCO", "MAD", 64800, 70000, 50⟩

def vooVolta2 : Voo := ⟨"FCO", "LIS", 64800, 70200, 60⟩

def pMAD : Pessoa := ⟨"Pessoa_MAD", "MAD", [vooBarato, vooCaro], [vooVolta]⟩

def pLIS : Pessoa := ⟨"Pessoa_LIS", "LIS", [vooTarde, vooCedo], [vooVolta2]⟩

def pSo : Pessoa := ⟨"Pessoa_MAD", "MAD", [vooBarato], [vooVolta]⟩

def pSemIda : Pessoa := ⟨"Pessoa_X", "X", [], [vooVolta]⟩

/-- A selection oracle whose `random.random()` draw keeps the tournament
winner. -/
def selPadrao : SelOraculo := ⟨[0, 1, 2], mkRat 1 2, 0⟩

def cruzPadrao : CruzOraculo := ⟨1, 1, 2, fun _ => mkRat 1 2⟩

/-- Mutation draws that never fire at rate 0 (all `random.random()`
outcomes are 1/2). -/
def mutNada : MutOraculo :=
  ⟨fun _ => mkRat 1 2, fun _ => mkRat 1 2, fun _ => 0, fun _ => 0, mkRat 1 2, 0, mkRat 1 2, 0⟩

/-- Mutation draws that always fire and pick option index 1 on the
outbound leg (the expensive flight of `pMAD`). -/
def mutCaro : MutOraculo :=
  ⟨fun _ => 0, fun _ => 0, fun _ => 1, fun _ => 0, mkRat 1 2, 0, mkRat 1 2, 0⟩

/-- Mutation draws where only the gap-repair draw of
`mutacao_inteligente` fires. -/
def mutReparo : MutOraculo :=
  ⟨fun _ => mkRat 1 2, fun _ => mkRat 1 2, fun _ => 0, fun _ => 0, 0, 0, mkRat 1 2, 0⟩

/-- Mutation draws that always fire with choice index 0. -/
def mutTudo : MutOraculo :=
  ⟨fun _ => 0, fun _ => 0, fun _ => 0, fun _ => 0, mkRat 1 2, 0, mkRat 1 2, 0⟩

/-- Mutation draws all equal to one (witness oracle with evidently
nonnegative draws). -/
def mutUm : MutOraculo :=
  ⟨fun _ => 1, fun _ => 1, fun _ => 0, fun _ => 0, 1, 0, 1, 0⟩

def iterNada : IterOraculo := ⟨selPadrao, selPadrao, selPadrao, cruzPadrao, mutNada, mutNada⟩

def iterCaro : IterOraculo := ⟨selPadrao, selPadrao, selPadrao, cruzPadrao, mutCaro, mutCaro⟩

def oracNada : ExecOraculo := ⟨fun _ _ => 0, fun _ _ => 0, fun _ _ => iterNada⟩

def oracCaro : ExecOraculo := ⟨fun _ _ => 0, fun _ _ => 0, fun _ _ => iterCaro⟩

/-- An evaluated single-person candidate on the cheap flights (fitness
`-(1·150 + 100·0 + 100·0)`). -/
def cBom : Cromossomo := ⟨[vooBarato], [vooVolta], -150⟩

/-- The candidate produced by crossover and an always-firing mutation on
`pMAD`'s expensive flight (fitness still unset). -/
def cCaroCru : Cromossomo := ⟨[vooCaro], [vooVolta], 0⟩

/-- Configuration for the C2 counterexample: positive elite rate whose
product with the population size truncates to zero. -/
def agC2 : AlgoritmoGenetico := ⟨[pMAD], 2, 1, mkRat 1 20, 50, 1, 100, 100⟩

def popC2 : List Cromossomo := [cBom, cBom]

/-- Configuration for the C2 witness: full elitism on one candidate. -/
def agW2 : AlgoritmoGenetico := ⟨[pMAD], 1, 1, 1, 50, 1, 100, 100⟩

def popW2 : List Cromossomo := [cBom]

def novaPopW2 : List Cromossomo :=
  (evoluir_geracao agW2 TipoCruzamento.uniforme false (fun _ => iterCaro) popW2).getD []

/-- Configuration for the C3 counterexample: a single person with a single
flight per leg, so every generation's best fitness is `-150`; the
stagnation limit is 40 while the convergence window is 20. -/
def agC3 : AlgoritmoGenetico := ⟨[pSo], 1, 0, 0, 40, 1, 100, 100⟩

def resC3 : ExecResultado :=
  (executar agC3 100 TipoCruzamento.uniforme false oracNada).getD ⟨none, [], [], 0⟩

def resW3 : ExecResultado :=
  (executar agC3 1 TipoCruzamento.uniforme false oracNada).getD ⟨none, [], [], 0⟩

/-- Configuration for the C7 counterexample: elite rate zero and an
always-worsening mutation, so the best of the final population is worse
than the first history entry. -/
def agC7 : AlgoritmoGenetico := ⟨[pMAD], 1, 1, 0, 50, 1, 100, 100⟩

def resC7 : ExecResultado :=
  (executar agC7 2 TipoCruzamento.uniforme false oracCaro).getD ⟨none, [], [], 0⟩

/-- Configuration for the C7 witness: one elite slot protects the best. -/
def agW7 : AlgoritmoGenetico := ⟨[pMAD], 1, 1, 1, 50, 1, 100, 100⟩

def resW7 : ExecResultado :=
  (executar agW7 1 TipoCruzamento.uniforme false oracCaro).getD ⟨none, [], [], 0⟩

/-- Configuration for the C9 counterexample: a person with an empty
outbound menu but population size zero, so seeding builds no candidate
and raises nothing. -/
def agC9 : AlgoritmoGenetico := ⟨[pSemIda], 0, 0, 0, 40, 1, 100, 100⟩

/-- Configuration for the C9 witness: same bad person, nonzero population
size. -/
def agW9 : AlgoritmoGenetico := ⟨[pSemIda], 1, 0, 0, 40, 1, 100, 100⟩

/-- People for the mutation claims: two people with two outbound options
each. -/
def pessoasMut : List Pessoa := [pMAD, pLIS]

/-- The C5 counterexample candidate: arrival gap of 2.5 hours, with an
earlier alternative available to the late-arriving person. -/
def cGap : Cromossomo := ⟨[vooBarato, vooTarde], [vooVolta, vooVolta2], 0⟩

/-- What the gap repair of `mutacao_inteligente` produces from `cGap` at
mutation rate 0. -/
def cGapReparado : Cromossomo := ⟨[vooBarato, vooCedo], [vooVolta, vooVolta2], 0⟩

/-- The C10 counterexample candidate: two outbound genes but a single
return gene. -/
def cCurto : Cromossomo := ⟨[vooBarato, vooTarde], [vooVolta], 0⟩

/-- Valid parents over `pessoasMut` used by the C1 and C8 witnesses. -/
def paiW1 : Cromossomo := ⟨[vooBarato, vooTarde], [vooVolta, vooVolta2], 0⟩

def paiW2 : Cromossomo := ⟨[vooCaro, vooCedo], [vooVolta, vooVolta2], 0⟩

/-! ### Basic list lemmas -/

theorem getD_de_getElem? {α : Type} {l : List α} {i : Nat} {x : α} (h : l[i]? = some x)
    (d : α) : l.getD i d = x := by
  rw [List.getD_eq_getElem?_getD, h]; rfl

theorem getD_append_esq {α : Type} {l₁ l₂ : List α} {i : Nat} (h : i < l₁.length) (d : α) :
    (l₁ ++ l₂).getD i d = l₁.getD i d := by
  rw [List.getD_eq_getElem?_getD, List.getD_eq_getElem?_getD, List.getElem?_append, if_pos h]

theorem getD_append_dir {α : Type} {l₁ l₂ : List α} {i : Nat} (h : l₁.length ≤ i) (d : α) :
    (l₁ ++ l₂).getD i d = l₂.getD (i - l₁.length) d := by
  rw [List.getD_eq_getElem?_getD, List.getD_eq_getElem?_getD, List.getElem?_append,
    if_neg (by omega)]

theorem getD_take_lt {α : Type} {l : List α} {n i : Nat} (h : i < n) (d : α) :
    (l.take n).getD i d = l.getD i d := by
  rw [List.getD_eq_getElem?_getD, List.getD_eq_getElem?_getD, List.getElem?_take, if_pos h]

theorem getD_drop_mais {α : Type} (l : List α) (n i : Nat) (d : α) :
    (l.drop n).getD i d = l.getD (n + i) d := by
  rw [List.getD_eq_getElem?_getD, List.getD_eq_getElem?_getD, List.getElem?_drop]

theorem getD_set_ne {α : Type} {l : List α} {i j : Nat} (h : i ≠ j) (x d : α) :
    (l.set i x).getD j d = l.getD j d := by
  rw [List.getD_eq_getElem?_getD, List.getD_eq_getElem?_getD, List.getElem?_set_ne h]

theorem getD_set_self {α : Type} {l : List α} {i : Nat} (h : i < l.length) (x d : α) :
    (l.set i x).getD i d = x := by
  rw [List.getD_eq_getElem?_getD, List.getElem?_set_self, Option.getD_some]
  exact h

theorem escolha_mem {l : List Voo} (h : l ≠ []) (k : Nat) : escolha l k ∈ l := by
  unfold escolha
  have hpos : 0 < l.length := List.length_pos.mpr h
  have hlen : k % l.length < l.length := Nat.mod_lt _ hpos
  rw [List.getD_eq_getElem?_getD, List.getElem?_eq_getElem hlen, Option.getD_some]
  exact List.getElem_mem hlen

theorem getD_map_pessoas (f : Pessoa → List Voo) {pessoas : List Pessoa} {i : Nat}
    {p : Pessoa} (h : pessoas[i]? = some p) :
    (pessoas.map f).getD i [] = f p := by
  refine getD_de_getElem? ?_ []
  rw [List.getElem?_map, h]; rfl

/-! ### Folds against Mathlib's list maximum and minimum -/

theorem foldl_max_fora (ys : List Int) : ∀ a b : Int, ys.foldl max (max a b) = max a (ys.foldl max b) := by
  induction ys with
  | nil => intro a b; rfl
  | cons z ys ih =>
      intro a b
      show ys.foldl max (max (max a b) z) = max a (ys.foldl max (max b z))
      rw [max_assoc, ih]

theorem foldl_min_fora (ys : List Int) : ∀ a b : Int, ys.foldl min (min a b) = min a (ys.foldl min b) := by
  induction ys with
  | nil => intro a b; rfl
  | cons z ys ih =>
      intro a b
      show ys.foldl min (min (min a b) z) = min a (ys.foldl min (min b z))
      rw [min_assoc, ih]

theorem maximum_eq_listMax : ∀ (xs : List Int) (x : Int),
    (x :: xs).maximum = ((listMax (x :: xs) : Int) : WithBot Int) := by
  intro xs
  induction xs with
  | nil => intro x; simp [listMax, List.maximum_cons]
  | cons y ys ih =>
      intro x
      rw [List.maximum_cons, ih y]
      show max (x : WithBot Int) ((listMax (y :: ys) : Int) : WithBot Int) = _
      rw [← WithBot.coe_max]
      congr 1
      show max x (ys.foldl max y) = ys.foldl max (max x y)
      rw [foldl_max_fora]

theorem minimum_eq_listMin : ∀ (xs : List Int) (x : Int),
    (x :: xs).minimum = ((listMin (x :: xs) : Int) : WithTop Int) := by
  intro xs
  induction xs with
  | nil => intro x; simp [listMin, List.minimum_cons]
  | cons y ys ih =>
      intro x
      rw [List.minimum_cons, ih y]
      show min (x : WithTop Int) ((listMin (y :: ys) : Int) : WithTop Int) = _
      rw [← WithTop.coe_min]
      congr 1
      show min x (ys.foldl min y) = ys.foldl min (min x y)
      rw [foldl_min_fora]

theorem listMax_unbot {l : List Int} (h : l ≠ []) : listMax l = l.maximum.unbot' 0 := by
  cases l with
  | nil => exact absurd rfl h
  | cons x xs => rw [maximum_eq_listMax]; rfl

theorem listMin_untop {l : List Int} (h : l ≠ []) : listMin l = l.minimum.untop' 0 := by
  cases l with
  | nil => exact absurd rfl h
  | cons x xs => rw [minimum_eq_listMin]; rfl

/-- The executable division agrees with field division of `ℚ`. -/
theorem divQ_eq_div (a b : ℚ) : divQ a b = a / b := by
  unfold divQ
  rcases eq_or_ne b.num 0 with hb | hb
  · have hb0 : b = 0 := by rwa [Rat.num_eq_zero] at hb
    subst hb0
    simp [Int.sign_zero, Rat.mkRat_eq_div]
  · have hbne : b ≠ 0 := fun h => hb (by rw [h]; rfl)
    rw [Rat.mkRat_eq_div]
    have hD : ((a.den * b.num.natAbs : Nat) : ℚ) ≠ 0 := by
      have h1 : 0 < a.den * b.num.natAbs := Nat.mul_pos a.pos (Int.natAbs_pos.mpr hb)
      exact_mod_cast Nat.pos_iff_ne_zero.mp h1
    rw [div_eq_div_iff hD hbne]
    have hden_a : ((a.den : ℚ)) ≠ 0 := by
      have := a.pos
      positivity
    have hden_b : ((b.den : ℚ)) ≠ 0 := by
      have := b.pos
      positivity
    have ha : ((a.num : ℚ)) = a * (a.den : ℚ) := (div_eq_iff hden_a).mp (Rat.num_div_den a)
    have hbd : ((b.num : ℚ)) = b * (b.den : ℚ) := (div_eq_iff hden_b).mp (Rat.num_div_den b)
    push_cast
    rcases lt_trichotomy b.num 0 with hneg | hzero | hpos
    · have hnegQ : ((b.num : ℚ)) < 0 := by exact_mod_cast hneg
      have habs : ((b.num.natAbs : ℚ)) = -(b.num : ℚ) := by
        rw [Int.cast_natAbs, Int.cast_abs]
        exact abs_of_neg hnegQ
      rw [Int.sign_eq_neg_one_of_neg hneg, habs, ha, hbd]
      push_cast
      ring
    · exact absurd hzero hb
    · have hposQ : (0 : ℚ) < ((b.num : ℚ)) := by exact_mod_cast hpos
      have habs : ((b.num.natAbs : ℚ)) = (b.num : ℚ) := by
        rw [Int.cast_natAbs, Int.cast_abs]
        exact abs_of_pos hposQ
      rw [Int.sign_eq_one_of_pos hpos, habs, ha, hbd]
      push_cast
      ring

/-- CLAIM C6 (confirmed).  For every candidate with nonempty outbound and
return gene lists, `calcular_fitness` returns the negated weighted sum of
the total price, the arrival gap in hours (maximal minus minimal chosen
outbound arrival), and the departure gap in hours (maximal minus minimal
chosen return departure); for a candidate with an empty outbound or
return list it returns the fixed penalty `-1000000000` instead of
raising. -/
theorem c6_formula_fitness (ag : AlgoritmoGenetico) (c : Cromossomo) :
    calcular_fitness ag c =
      if c.voos_ida = [] ∨ c.voos_volta = [] then -1000000000
      else
        -(ag.peso_custo * ((c.voos_ida.map Voo.preco).sum + (c.voos_volta.map Voo.preco).sum) +
          ag.peso_gap_chegada *
            ((((c.voos_ida.map Voo.horario_chegada).maximum.unbot' 0 -
               (c.voos_ida.map Voo.horario_chegada).minimum.untop' 0 : Int) : ℚ) / 3600) +
          ag.peso_gap_saida *
            ((((c.voos_volta.map Voo.horario_saida).maximum.unbot' 0 -
               (c.voos_volta.map Voo.horario_saida).minimum.untop' 0 : Int) : ℚ) / 3600)) := by
  simp only [calcular_fitness]
  split
  · rfl
  · next h =>
      push_neg at h
      obtain ⟨h1, h2⟩ := h
      have m1 : c.voos_ida.map Voo.horario_chegada ≠ [] := by simp [h1]
      have m2 : c.voos_volta.map Voo.horario_saida ≠ [] := by simp [h2]
      rw [List.map_append, List.sum_append, listMax_unbot m1, listMin_untop m1,
        listMax_unbot m2, listMin_untop m2, divQ_eq_div, divQ_eq_div]

/-- CLAIM C4, counterexample.  With gene length exactly 1,
`cruzamento_ponto_unico` does not return two empty candidates: it reaches
`random.randint(1, 0)`, which raises ValueError (the `none` result). -/
theorem c4_contra :
    cruzamento_ponto_unico ⟨[vooBarato], [vooVolta], 0⟩ ⟨[vooBarato], [vooVolta], 0⟩ 1 = none ∧
    (⟨[vooBarato], [vooVolta], 0⟩ : Cromossomo).voos_ida.length = 1 := by
  exact ⟨rfl, rfl⟩

/-- CLAIM C4 (corrected).  For parents with gene length `N < 2`,
single-point crossover returns two empty candidates only when `N = 0`;
when `N = 1` the call to `random.randint(1, 0)` raises ValueError, which
propagates. -/
theorem c4_ponto_unico_degenerado (pai1 pai2 : Cromossomo) (ponto_corte : Nat)
    (h : pai1.voos_ida.length ≤ 1) :
    cruzamento_ponto_unico pai1 pai2 ponto_corte =
      if pai1.voos_ida.length = 0 then some (cromossomoVazio, cromossomoVazio) else none := by
  simp only [cruzamento_ponto_unico]
  rcases Nat.lt_or_ge pai1.voos_ida.length 1 with h1 | h1
  · simp [Nat.lt_one_iff.mp h1]
  · have hx : pai1.voos_ida.length = 1 := by omega
    simp [hx]

/-- Witness for `c4_ponto_unico_degenerado` at gene length 0. -/
theorem c4_ponto_unico_degenerado_witness :
    cromossomoVazio.voos_ida.length ≤ 1 ∧
    cruzamento_ponto_unico cromossomoVazio cromossomoVazio 5 =
      if cromossomoVazio.voos_ida.length = 0 then some (cromossomoVazio, cromossomoVazio)
      else none :=
  ⟨by decide, c4_ponto_unico_degenerado cromossomoVazio cromossomoVazio 5 (by decide)⟩

/-! ### Membership of the fold-based extrema -/

theorem foldl_max_escolhe (xs : List Int) : ∀ a : Int, xs.foldl max a = a ∨ xs.foldl max a ∈ xs := by
  induction xs with
  | nil => intro a; exact Or.inl rfl
  | cons y ys ih =>
      intro a
      show ys.foldl max (max a y) = a ∨ ys.foldl max (max a y) ∈ y :: ys
      rcases ih (max a y) with h | h
      · rcases max_choice a y with hm | hm
        · rw [h, hm]; exact Or.inl rfl
        · rw [h, hm]; exact Or.inr (List.mem_cons_self y ys)
      · exact Or.inr (List.mem_cons_of_mem y h)

theorem foldl_min_escolhe (xs : List Int) : ∀ a : Int, xs.foldl min a = a ∨ xs.foldl min a ∈ xs := by
  induction xs with
  | nil => intro a; exact Or.inl rfl
  | cons y ys ih =>
      intro a
      show ys.foldl min (min a y) = a ∨ ys.foldl min (min a y) ∈ y :: ys
      rcases ih (min a y) with h | h
      · rcases min_choice a y with hm | hm
        · rw [h, hm]; exact Or.inl rfl
        · rw [h, hm]; exact Or.inr (List.mem_cons_self y ys)
      · exact Or.inr (List.mem_cons_of_mem y h)

theorem listMax_mem {l : List Int} (h : l ≠ []) : listMax l ∈ l := by
  cases l with
  | nil => exact absurd rfl h
  | cons x xs =>
      show xs.foldl max x ∈ x :: xs
      rcases foldl_max_escolhe xs x with hx | hx
      · rw [hx]; exact List.mem_cons_self x xs
      · exact List.mem_cons_of_mem x hx

theorem listMin_mem {l : List Int} (h : l ≠ []) : listMin l ∈ l := by
  cases l with
  | nil => exact absurd rfl h
  | cons x xs =>
      show xs.foldl min x ∈ x :: xs
      rcases foldl_min_escolhe xs x with hx | hx
      · rw [hx]; exact List.mem_cons_self x xs
      · exact List.mem_cons_of_mem x hx

/-! ### Closure of the mutation operators (claims C5 and C10) -/

theorem genesFechados_refl (pessoas : List Pessoa) (c : Cromossomo) :
    genesFechados pessoas c c :=
  ⟨rfl, rfl, fun _ _ => Or.inl rfl, fun _ _ => Or.inl rfl⟩

theorem set_ida_fechado {pessoas : List Pessoa} {c cmid : Cromossomo}
    (hf : genesFechados pessoas c cmid) {i : Nat} (hi : i < c.voos_ida.length) {v : Voo}
    (hv : v ∈ (pessoas.map Pessoa.voos_ida).getD i []) :
    ∃ l, listSet? cmid.voos_ida i v = some l ∧
      genesFechados pessoas c { cmid with voos_ida := l } := by
  have hlen : i < cmid.voos_ida.length := by rw [hf.1]; exact hi
  have hset : listSet? cmid.voos_ida i v = some (cmid.voos_ida.set i v) := by
    unfold listSet?; rw [if_pos hlen]
  obtain ⟨l1, l2, g1, g2⟩ := hf
  refine ⟨cmid.voos_ida.set i v, hset, ⟨by simpa using l1, l2, fun j hj => ?_, g2⟩⟩
  by_cases hji : j = i
  · subst hji; right; rw [getD_set_self hlen]; exact hv
  · rw [getD_set_ne (Ne.symm hji)]; exact g1 j hj

theorem set_volta_fechado {pessoas : List Pessoa} {c cmid : Cromossomo}
    (hf : genesFechados pessoas c cmid) {i : Nat} (hi : i < c.voos_volta.length) {v : Voo}
    (hv : v ∈ (pessoas.map Pessoa.voos_volta).getD i []) :
    ∃ l, listSet? cmid.voos_volta i v = some l ∧
      genesFechados pessoas c { cmid with voos_volta := l } := by
  have hlen : i < cmid.voos_volta.length := by rw [hf.2.1]; exact hi
  have hset : listSet? cmid.voos_volta i v = some (cmid.voos_volta.set i v) := by
    unfold listSet?; rw [if_pos hlen]
  obtain ⟨l1, l2, g1, g2⟩ := hf
  refine ⟨cmid.voos_volta.set i v, hset, ⟨l1, by simpa using l2, g1, fun j hj => ?_⟩⟩
  by_cases hji : j = i
  · subst hji; right; rw [getD_set_self hlen]; exact hv
  · rw [getD_set_ne (Ne.symm hji)]; exact g2 j hj

theorem mutacaoPasso_fechado {taxa : ℚ} {pessoas : List Pessoa} {o : MutOraculo}
    {c cmid : Cromossomo} {i : Nat}
    (hiv : c.voos_ida.length ≤ c.voos_volta.length)
    (hvp : c.voos_volta.length ≤ pessoas.length)
    (hi : i < c.voos_ida.length)
    (hf : genesFechados pessoas c cmid) :
    ∃ cout, mutacaoPasso taxa pessoas o cmid i = some cout ∧ genesFechados pessoas c cout := by
  have hip : i < pessoas.length := by omega
  have hp : pessoas[i]? = some pessoas[i] := List.getElem?_eq_getElem hip
  have hmenu_ida : (pessoas.map Pessoa.voos_ida).getD i [] = pessoas[i].voos_ida :=
    getD_map_pessoas Pessoa.voos_ida hp
  have hmenu_volta : (pessoas.map Pessoa.voos_volta).getD i [] = pessoas[i].voos_volta :=
    getD_map_pessoas Pessoa.voos_volta hp
  have h1 : ∃ c1, (if o.rIda i < taxa then
      if pessoas[i].voos_ida = [] then some cmid
      else (listSet? cmid.voos_ida i (escolha pessoas[i].voos_ida (o.cIda i))).map
             (fun l => { cmid with voos_ida := l })
    else some cmid) = some c1 ∧ genesFechados pessoas c c1 := by
    by_cases hr : o.rIda i < taxa
    · by_cases hm : pessoas[i].voos_ida = []
      · exact ⟨cmid, by rw [if_pos hr, if_pos hm], hf⟩
      · have hvmem : escolha pessoas[i].voos_ida (o.cIda i) ∈
            (pessoas.map Pessoa.voos_ida).getD i [] := by
          rw [hmenu_ida]; exact escolha_mem hm (o.cIda i)
        obtain ⟨l, hset, hfl⟩ := set_ida_fechado hf hi hvmem
        exact ⟨_, by rw [if_pos hr, if_neg hm, hset]; rfl, hfl⟩
    · exact ⟨cmid, by rw [if_neg hr], hf⟩
  obtain ⟨c1, he1, hf1⟩ := h1
  have h2 : ∃ c2, (if o.rVolta i < taxa then
      if pessoas[i].voos_volta = [] then some c1
      else (listSet? c1.voos_volta i (escolha pessoas[i].voos_volta (o.cVolta i))).map
             (fun l => { c1 with voos_volta := l })
    else some c1) = some c2 ∧ genesFechados pessoas c c2 := by
    by_cases hr : o.rVolta i < taxa
    · by_cases hm : pessoas[i].voos_volta = []
      · exact ⟨c1, by rw [if_pos hr, if_pos hm], hf1⟩
      · have hvmem : escolha pessoas[i].voos_volta (o.cVolta i) ∈
            (pessoas.map Pessoa.voos_volta).getD i [] := by
          rw [hmenu_volta]; exact escolha_mem hm (o.cVolta i)
        have hivolta : i < c.voos_volta.length := by omega
        obtain ⟨l, hset, hfl⟩ := set_volta_fechado hf1 hivolta hvmem
        exact ⟨_, by rw [if_pos hr, if_neg hm, hset]; rfl, hfl⟩
    · exact ⟨c1, by rw [if_neg hr], hf1⟩
  obtain ⟨c2, he2, hf2⟩ := h2
  refine ⟨c2, ?_, hf2⟩
  simp only [mutacaoPasso, hp, he1, he2]

theorem mutacaoLaco_fechado {taxa : ℚ} {pessoas : List Pessoa} {o : MutOraculo}
    {c : Cromossomo}
    (hiv : c.voos_ida.length ≤ c.voos_volta.length)
    (hvp : c.voos_volta.length ≤ pessoas.length) :
    ∀ (n i : Nat) (cmid : Cromossomo), i + n ≤ c.voos_ida.length →
      genesFechados pessoas c cmid →
      ∃ cout, mutacaoLaco taxa pessoas o i n cmid = some cout ∧ genesFechados pessoas c cout := by
  intro n
  induction n with
  | zero => intro i cmid _ hf; exact ⟨cmid, rfl, hf⟩
  | succ n ih =>
      intro i cmid hin hf
      obtain ⟨c1, he1, hf1⟩ := @mutacaoPasso_fechado taxa pessoas o c cmid i hiv hvp
        (by omega) hf
      obtain ⟨cout, heo, hfo⟩ := ih (i+1) c1 (by omega) hf1
      refine ⟨cout, ?_, hfo⟩
      unfold mutacaoLaco
      rw [he1]
      exact heo

theorem mutacao_tradicional_fechada (taxa : ℚ) (pessoas : List Pessoa) (o : MutOraculo)
    (c : Cromossomo) (hiv : c.voos_ida.length ≤ c.voos_volta.length)
    (hvp : c.voos_volta.length ≤ pessoas.length) :
    mutacaoFechada pessoas c (mutacao_tradicional taxa pessoas o c) := by
  obtain ⟨cout, heo, hfo⟩ := @mutacaoLaco_fechado taxa pessoas o c hiv hvp
    c.voos_ida.length 0 c (by omega) (genesFechados_refl pessoas c)
  unfold mutacao_tradicional
  rw [heo]
  exact hfo

theorem reparoIda_fechado (pessoas : List Pessoa) (o : MutOraculo) {c novo : Cromossomo}
    (hiv : c.voos_ida.length ≤ c.voos_volta.length)
    (hvp : c.voos_volta.length ≤ pessoas.length)
    (hf : genesFechados pessoas c novo) :
    ∃ c1, reparoIda pessoas o c novo = some c1 ∧ genesFechados pessoas c c1 := by
  simp only [reparoIda]
  by_cases hlen : 1 < (c.voos_ida.map Voo.horario_chegada).length
  swap
  · rw [if_neg hlen]; exact ⟨novo, rfl, hf⟩
  rw [if_pos hlen]
  by_cases hgap : divQ ((listMax (c.voos_ida.map Voo.horario_chegada) -
      listMin (c.voos_ida.map Voo.horario_chegada) : Int) : ℚ) 3600 > 1
  swap
  · rw [if_neg hgap]; exact ⟨novo, rfl, hf⟩
  rw [if_pos hgap]
  have hne : c.voos_ida.map Voo.horario_chegada ≠ [] := by
    intro hx; rw [hx] at hlen; simp at hlen
  have hidx : (c.voos_ida.map Voo.horario_chegada).indexOf
      (listMax (c.voos_ida.map Voo.horario_chegada)) < c.voos_ida.length := by
    have := List.indexOf_lt_length.mpr (listMax_mem hne)
    simpa using this
  have hip : (c.voos_ida.map Voo.horario_chegada).indexOf
      (listMax (c.voos_ida.map Voo.horario_chegada)) < pessoas.length := by omega
  have hp : pessoas[(c.voos_ida.map Voo.horario_chegada).indexOf
      (listMax (c.voos_ida.map Voo.horario_chegada))]? =
      some (pessoas.get ⟨_, hip⟩) := List.getElem?_eq_getElem hip
  rw [hp]
  simp only []
  by_cases halts : (pessoas.get ⟨_, hip⟩).voos_ida.filter
      (fun v => v.horario_chegada < listMax (c.voos_ida.map Voo.horario_chegada)) = []
  · rw [if_pos halts]; exact ⟨novo, rfl, hf⟩
  rw [if_neg halts]
  by_cases hr : o.r1 < mkRat 3 5
  swap
  · rw [if_neg hr]; exact ⟨novo, rfl, hf⟩
  rw [if_pos hr]
  have hmem : escolha ((pessoas.get ⟨_, hip⟩).voos_ida.filter
      (fun v => v.horario_chegada < listMax (c.voos_ida.map Voo.horario_chegada))) o.k1 ∈
      (pessoas.map Pessoa.voos_ida).getD ((c.voos_ida.map Voo.horario_chegada).indexOf
        (listMax (c.voos_ida.map Voo.horario_chegada))) [] := by
    rw [getD_map_pessoas Pessoa.voos_ida hp]
    exact List.mem_of_mem_filter (escolha_mem halts o.k1)
  obtain ⟨l, hset, hfl⟩ := set_ida_fechado hf hidx hmem
  exact ⟨_, by rw [hset]; rfl, hfl⟩

theorem reparoVolta_fechado (pessoas : List Pessoa) (o : MutOraculo) {c novo : Cromossomo}
    (hiv : c.voos_ida.length ≤ c.voos_volta.length)
    (hvp : c.voos_volta.length ≤ pessoas.length)
    (hf : genesFechados pessoas c novo) :
    ∃ c1, reparoVolta pessoas o c novo = some c1 ∧ genesFechados pessoas c c1 := by
  simp only [reparoVolta]
  by_cases hlen : 1 < (c.voos_volta.map Voo.horario_saida).length
  swap
  · rw [if_neg hlen]; exact ⟨novo, rfl, hf⟩
  rw [if_pos hlen]
  by_cases hgap : divQ ((listMax (c.voos_volta.map Voo.horario_saida) -
      listMin (c.voos_volta.map Voo.horario_saida) : Int) : ℚ) 3600 > 1
  swap
  · rw [if_neg hgap]; exact ⟨novo, rfl, hf⟩
  rw [if_pos hgap]
  have hne : c.voos_volta.map Voo.horario_saida ≠ [] := by
    intro hx; rw [hx] at hlen; simp at hlen
  have hidx : (c.voos_volta.map Voo.horario_saida).indexOf
      (listMin (c.voos_volta.map Voo.horario_saida)) < c.voos_volta.length := by
    have := List.indexOf_lt_length.mpr (listMin_mem hne)
    simpa using this
  have hip : (c.voos_volta.map Voo.horario_saida).indexOf
      (listMin (c.voos_volta.map Voo.horario_saida)) < pessoas.length := by omega
  have hp : pessoas[(c.voos_volta.map Voo.horario_saida).indexOf
      (listMin (c.voos_volta.map Voo.horario_saida))]? =
      some (pessoas.get ⟨_, hip⟩) := List.getElem?_eq_getElem hip
  rw [hp]
  simp only []
  by_cases halts : (pessoas.get ⟨_, hip⟩).voos_volta.filter
      (fun v => listMin (c.voos_volta.map Voo.horario_saida) < v.horario_saida) = []
  · rw [if_pos halts]; exact ⟨novo, rfl, hf⟩
  rw [if_neg halts]
  by_cases hr : o.r2 < mkRat 3 5
  swap
  · rw [if_neg hr]; exact ⟨novo, rfl, hf⟩
  rw [if_pos hr]
  have hmem : escolha ((pessoas.get ⟨_, hip⟩).voos_volta.filter
      (fun v => listMin (c.voos_volta.map Voo.horario_saida) < v.horario_saida)) o.k2 ∈
      (pessoas.map Pessoa.voos_volta).getD ((c.voos_volta.map Voo.horario_saida).indexOf
        (listMin (c.voos_volta.map Voo.horario_saida))) [] := by
    rw [getD_map_pessoas Pessoa.voos_volta hp]
    exact List.mem_of_mem_filter (escolha_mem halts o.k2)
  obtain ⟨l, hset, hfl⟩ := set_volta_fechado hf hidx hmem
  exact ⟨_, by rw [hset]; rfl, hfl⟩

theorem mutacao_inteligente_fechada (taxa : ℚ) (pessoas : List Pessoa) (o : MutOraculo)
    (c : Cromossomo) (hiv : c.voos_ida.length ≤ c.voos_volta.length)
    (hvp : c.voos_volta.length ≤ pessoas.length) :
    mutacaoFechada pessoas c (mutacao_inteligente taxa pessoas o c) := by
  unfold mutacao_inteligente
  by_cases hpe : pessoas = []
  · rw [if_pos hpe]; exact genesFechados_refl pessoas c
  rw [if_neg hpe]
  obtain ⟨c1, he1, hf1⟩ := reparoIda_fechado pessoas o hiv hvp (genesFechados_refl pessoas c)
  obtain ⟨c2, he2, hf2⟩ := reparoVolta_fechado pessoas o hiv hvp hf1
  obtain ⟨cout, heo, hfo⟩ := @mutacaoLaco_fechado (taxa * mkRat 1 5) pessoas o c hiv hvp
    c2.voos_ida.length 0 c2 (by rw [hf2.1]; omega) hf2
  simp only [he1, he2, heo]
  exact hfo

/-- CLAIM C10, counterexample.  A candidate with two outbound genes but a
single return gene (both sequences no longer than the person list) makes
`mutacao_tradicional` attempt the list assignment
`novo_cromossomo.voos_volta[1] = ...`, which raises IndexError instead of
returning a candidate. -/
theorem c10_contra :
    cCurto.voos_ida.length ≤ pessoasMut.length ∧
    cCurto.voos_volta.length ≤ pessoasMut.length ∧
    mutacao_tradicional 1 pessoasMut mutTudo cCurto = none := by
  exact ⟨by decide, by decide, by decide⟩

/-- CLAIM C10 (corrected).  For a candidate whose outbound gene count is
at most its return gene count, which in turn is at most the number of
people, both mutation strategies return a candidate with unchanged gene
counts in which every gene is either the input's gene at that position or
a member of that person's menu for that leg.  (Without the added bound
`len(voos_ida) ≤ len(voos_volta)` the return-leg assignment of the
uniform pass can raise IndexError, as `c10_contra` shows.) -/
theorem c10_mutacoes_preservam (taxa : ℚ) (pessoas : List Pessoa) (o : MutOraculo)
    (c : Cromossomo) (h1 : c.voos_ida.length ≤ c.voos_volta.length)
    (h2 : c.voos_volta.length ≤ pessoas.length) :
    mutacaoFechada pessoas c (mutacao_tradicional taxa pessoas o c) ∧
    mutacaoFechada pessoas c (mutacao_inteligente taxa pessoas o c) :=
  ⟨mutacao_tradicional_fechada taxa pessoas o c h1 h2,
   mutacao_inteligente_fechada taxa pessoas o c h1 h2⟩

/-- Witness for `c10_mutacoes_preservam` on a concrete two-person
candidate. -/
theorem c10_mutacoes_preservam_witness :
    cGap.voos_ida.length ≤ cGap.voos_volta.length ∧
    cGap.voos_volta.length ≤ pessoasMut.length ∧
    (mutacaoFechada pessoasMut cGap (mutacao_tradicional (mkRat 1 2) pessoasMut mutTudo cGap) ∧
     mutacaoFechada pessoasMut cGap (mutacao_inteligente (mkRat 1 2) pessoasMut mutTudo cGap)) :=
  ⟨by decide, by decide,
   c10_mutacoes_preservam (mkRat 1 2) pessoasMut mutTudo cGap (by decide) (by decide)⟩

/-- CLAIM C5, counterexample.  At mutation rate 0, `mutacao_inteligente`
still changes genes: the outbound gap repair fires on its own 60% draw
(here 0) because it does not consult `taxa_mutacao`, replacing the
late-arriving person's outbound gene. -/
theorem c5_contra :
    mutacao_inteligente 0 pessoasMut mutReparo cGap = some cGapReparado ∧
    cGapReparado ≠ cGap := by
  exact ⟨by decide, by decide⟩

theorem mutacaoLaco_taxa_zero (pessoas : List Pessoa) (o : MutOraculo)
    (h2 : ∀ j, 0 ≤ o.rIda j) (h3 : ∀ j, 0 ≤ o.rVolta j) :
    ∀ (n i : Nat) (c : Cromossomo), i + n ≤ pessoas.length →
      mutacaoLaco 0 pessoas o i n c = some c := by
  intro n
  induction n with
  | zero => intro i c _; rfl
  | succ n ih =>
      intro i c hin
      have hip : i < pessoas.length := by omega
      have hp : pessoas[i]? = some pessoas[i] := List.getElem?_eq_getElem hip
      have hIda : ¬ (o.rIda i < 0) := not_lt.mpr (h2 i)
      have hVolta : ¬ (o.rVolta i < 0) := not_lt.mpr (h3 i)
      unfold mutacaoLaco mutacaoPasso
      simp only [hp, if_neg hIda, if_neg hVolta]
      exact ih (i+1) c (by omega)

/-- CLAIM C5 (corrected).  At mutation rate 0 `mutacao_tradicional`
returns the candidate gene-for-gene unchanged for every outcome of the
random source (all `random.random()` draws are nonnegative); the same
statement is false for `mutacao_inteligente`, whose gap repairs ignore
the rate (`c5_contra`). -/
theorem c5_taxa_zero_tradicional (pessoas : List Pessoa) (o : MutOraculo) (c : Cromossomo)
    (h1 : c.voos_ida.length ≤ pessoas.length)
    (h2 : ∀ j, 0 ≤ o.rIda j) (h3 : ∀ j, 0 ≤ o.rVolta j) :
    mutacao_tradicional 0 pessoas o c = some c :=
  mutacaoLaco_taxa_zero pessoas o h2 h3 c.voos_ida.length 0 c (by omega)

/-- Witness for `c5_taxa_zero_tradicional`. -/
theorem c5_taxa_zero_tradicional_witness :
    cGap.voos_ida.length ≤ pessoasMut.length ∧
    mutacao_tradicional 0 pessoasMut mutUm cGap = some cGap :=
  ⟨by decide, c5_taxa_zero_tradicional pessoasMut mutUm cGap (by decide)
    (fun _ => zero_le_one) (fun _ => zero_le_one)⟩

/-! ### The cost-greedy pairing loop (claim C8) -/

theorem escolheBarato_spec (a b : List Voo) :
    ∀ (n i : Nat) (l1 l2 : List Voo), escolheBarato a b i n = some (l1, l2) →
      l1.length = n ∧ l2.length = n ∧
      ∀ j, j < n →
        (l1.getD j vooPadrao).preco ≤ (l2.getD j vooPadrao).preco ∧
        ((l1.getD j vooPadrao = a.getD (i+j) vooPadrao ∧
          l2.getD j vooPadrao = b.getD (i+j) vooPadrao) ∨
         (l1.getD j vooPadrao = b.getD (i+j) vooPadrao ∧
          l2.getD j vooPadrao = a.getD (i+j) vooPadrao)) := by
  intro n
  induction n with
  | zero =>
      intro i l1 l2 h
      obtain ⟨h1, h2⟩ : ([] : List Voo) = l1 ∧ ([] : List Voo) = l2 := by
        have := h
        unfold escolheBarato at this
        exact ⟨congrArg Prod.fst (Option.some.inj this),
               congrArg Prod.snd (Option.some.inj this)⟩
      subst h1; subst h2
      exact ⟨rfl, rfl, fun j hj => absurd hj (Nat.not_lt_zero j)⟩
  | succ n ih =>
      intro i l1 l2 h
      unfold escolheBarato at h
      cases hx : a[i]? with
      | none => rw [hx] at h; exact absurd h (by simp)
      | some x =>
        cases hy : b[i]? with
        | none => rw [hx, hy] at h; exact absurd h (by simp)
        | some y =>
          rw [hx, hy] at h
          cases hr : escolheBarato a b (i+1) n with
          | none => rw [hr] at h; exact absurd h (by simp)
          | some pr =>
            obtain ⟨r1, r2⟩ := pr
            rw [hr] at h
            obtain ⟨hl1, hl2, hgenes⟩ := ih (i+1) r1 r2 hr
            have hxa : a.getD i vooPadrao = x := getD_de_getElem? hx vooPadrao
            have hyb : b.getD i vooPadrao = y := getD_de_getElem? hy vooPadrao
            have hpair : (l1, l2) = if x.preco ≤ y.preco then (x :: r1, y :: r2)
                else (y :: r1, x :: r2) := (Option.some.inj h).symm
            by_cases hp : x.preco ≤ y.preco
            · rw [if_pos hp] at hpair
              obtain ⟨e1, e2⟩ := Prod.mk.injEq .. ▸ hpair
              subst e1; subst e2
              refine ⟨by simp [hl1], by simp [hl2], fun j hj => ?_⟩
              cases j with
              | zero =>
                  refine ⟨by simpa using hp, Or.inl ⟨?_, ?_⟩⟩
                  · simpa using hxa.symm
                  · simpa using hyb.symm
              | succ j =>
                  have hj' : j < n := by omega
                  have hmat := hgenes j hj'
                  have heq : i + 1 + j = i + (j + 1) := by omega
                  rw [heq] at hmat
                  simpa using hmat
            · rw [if_neg hp] at hpair
              obtain ⟨e1, e2⟩ := Prod.mk.injEq .. ▸ hpair
              subst e1; subst e2
              refine ⟨by simp [hl1], by simp [hl2], fun j hj => ?_⟩
              cases j with
              | zero =>
                  refine ⟨?_, Or.inr ⟨?_, ?_⟩⟩
                  · simp only [List.getD_cons_zero]
                    exact le_of_lt (lt_of_not_le hp)
                  · simpa using hyb.symm
                  · simpa using hxa.symm
              | succ j =>
                  have hj' : j < n := by omega
                  have hmat := hgenes j hj'
                  have heq : i + 1 + j = i + (j + 1) := by omega
                  rw [heq] at hmat
                  simpa using hmat

theorem escolheBarato_total (a b : List Voo) :
    ∀ (n i : Nat), i + n ≤ a.length → i + n ≤ b.length →
      ∃ l1 l2, escolheBarato a b i n = some (l1, l2) := by
  intro n
  induction n with
  | zero => intro i _ _; exact ⟨[], [], rfl⟩
  | succ n ih =>
      intro i ha hb
      obtain ⟨r1, r2, hr⟩ := ih (i+1) (by omega) (by omega)
      have hia : i < a.length := by omega
      have hib : i < b.length := by omega
      have hx : a[i]? = some (a.get ⟨i, hia⟩) := List.getElem?_eq_getElem hia
      have hy : b[i]? = some (b.get ⟨i, hib⟩) := List.getElem?_eq_getElem hib
      by_cases hp : (a.get ⟨i, hia⟩).preco ≤ (b.get ⟨i, hib⟩).preco
      · refine ⟨a.get ⟨i, hia⟩ :: r1, b.get ⟨i, hib⟩ :: r2, ?_⟩
        unfold escolheBarato
        simp only [hx, hy, hr]
        rw [if_pos hp]
      · refine ⟨b.get ⟨i, hib⟩ :: r1, a.get ⟨i, hia⟩ :: r2, ?_⟩
        unfold escolheBarato
        simp only [hx, hy, hr]
        rw [if_neg hp]

/-- CLAIM C8 (confirmed).  For equal-length parents with at least one
gene, cost-greedy crossover produces two children; at every position and
for each leg, child 1 carries the cheaper (tie: parent 1's) option and
child 2 the other, and together they carry exactly the two parents'
options of that position and leg. -/
theorem c8_custo_guloso (pai1 pai2 : Cromossomo)
    (h1 : pai2.voos_ida.length = pai1.voos_ida.length)
    (h2 : pai1.voos_volta.length = pai1.voos_ida.length)
    (h3 : pai2.voos_volta.length = pai1.voos_ida.length)
    (h4 : 1 ≤ pai1.voos_ida.length) :
    custoGulosoOK pai1 pai2 (cruzamento_baseado_custo pai1 pai2) := by
  obtain ⟨i1, i2, hi⟩ := escolheBarato_total pai1.voos_ida pai2.voos_ida
    pai1.voos_ida.length 0 (by omega) (by omega)
  obtain ⟨v1, v2, hv⟩ := escolheBarato_total pai1.voos_volta pai2.voos_volta
    pai1.voos_ida.length 0 (by omega) (by omega)
  obtain ⟨hi1, hi2, hgi⟩ := escolheBarato_spec pai1.voos_ida pai2.voos_ida
    pai1.voos_ida.length 0 i1 i2 hi
  obtain ⟨hv1, hv2, hgv⟩ := escolheBarato_spec pai1.voos_volta pai2.voos_volta
    pai1.voos_ida.length 0 v1 v2 hv
  simp only [cruzamento_baseado_custo, if_neg (by omega : ¬ pai1.voos_ida.length = 0), hi, hv]
  refine ⟨by simpa using hi1, by simpa using hi2, by simp only []; omega,
    by simp only []; omega, fun j hj => ?_, fun j hj => ?_⟩
  · have := hgi j (by omega)
    simpa using this
  · have := hgv j (by omega)
    simpa [h2] using this

/-- Witness for `c8_custo_guloso` on concrete two-gene parents. -/
theorem c8_custo_guloso_witness :
    paiW2.voos_ida.length = paiW1.voos_ida.length ∧
    paiW1.voos_volta.length = paiW1.voos_ida.length ∧
    paiW2.voos_volta.length = paiW1.voos_ida.length ∧
    1 ≤ paiW1.voos_ida.length ∧
    custoGulosoOK paiW1 paiW2 (cruzamento_baseado_custo paiW1 paiW2) :=
  ⟨by decide, by decide, by decide, by decide,
   c8_custo_guloso paiW1 paiW2 (by decide) (by decide) (by decide) (by decide)⟩

/-! ### Validity of the five crossover strategies (claim C1) -/

theorem escolhasDoMenu_mistura {menus : List (List Voo)} {xs ys zs : List Voo}
    (hx : escolhasDoMenu menus xs) (hy : escolhasDoMenu menus ys)
    (hlen : zs.length = xs.length)
    (hz : ∀ i, i < zs.length →
      zs.getD i vooPadrao = xs.getD i vooPadrao ∨ zs.getD i vooPadrao = ys.getD i vooPadrao) :
    escolhasDoMenu menus zs := by
  obtain ⟨hxl, hxm⟩ := hx
  obtain ⟨hyl, hym⟩ := hy
  refine ⟨by omega, fun i hi => ?_⟩
  rcases hz i hi with h | h
  · rw [h]; exact hxm i (by omega)
  · rw [h]; exact hym i (by omega)

theorem vazio_valido {pessoas : List Pessoa} (h : pessoas.length = 0) :
    cromossomoValido pessoas cromossomoVazio := by
  have hp : pessoas = [] := List.length_eq_zero.mp h
  subst hp
  exact ⟨⟨rfl, fun i hi => absurd hi (by simp [cromossomoVazio])⟩,
         ⟨rfl, fun i hi => absurd hi (by simp [cromossomoVazio])⟩⟩

theorem corte_valido {menus : List (List Voo)} {xs ys : List Voo}
    (hx : escolhasDoMenu menus xs) (hy : escolhasDoMenu menus ys) (c : Nat) :
    escolhasDoMenu menus (xs.take c ++ ys.drop c) := by
  obtain ⟨hxl, hxm⟩ := hx
  obtain ⟨hyl, hym⟩ := hy
  have hlen : (xs.take c ++ ys.drop c).length = xs.length := by
    simp only [List.length_append, List.length_take, List.length_drop]
    omega
  refine ⟨hlen.trans hxl, fun i hi => ?_⟩
  rw [hlen] at hi
  by_cases hc : i < c
  · have htl : i < (xs.take c).length := by simp only [List.length_take]; omega
    rw [getD_append_esq htl, getD_take_lt hc]
    exact hxm i hi
  · have hc' : c ≤ i := Nat.le_of_not_lt hc
    have htl : (xs.take c).length ≤ i := by simp only [List.length_take]; omega
    have hcx : (xs.take c).length = c := by simp only [List.length_take]; omega
    rw [getD_append_dir htl, hcx, getD_drop_mais, Nat.add_sub_cancel' hc']
    exact hym i (by omega)

theorem corte2_valido {menus : List (List Voo)} {xs ys : List Voo}
    (hx : escolhasDoMenu menus xs) (hy : escolhasDoMenu menus ys) {p q : Nat}
    (hpq : p ≤ q) (hq : q ≤ xs.length) :
    escolhasDoMenu menus (xs.take p ++ fatia ys p q ++ xs.drop q) := by
  obtain ⟨hxl, hxm⟩ := hx
  obtain ⟨hyl, hym⟩ := hy
  have hfat : (fatia ys p q).length = q - p := by
    simp only [fatia, List.length_take, List.length_drop]
    omega
  have htake : (xs.take p).length = p := by simp only [List.length_take]; omega
  have hAB : (xs.take p ++ fatia ys p q).length = q := by
    simp only [List.length_append, htake, hfat]; omega
  have hlen : (xs.take p ++ fatia ys p q ++ xs.drop q).length = xs.length := by
    simp only [List.length_append, htake, hfat, List.length_drop]; omega
  refine ⟨hlen.trans hxl, fun i hi => ?_⟩
  rw [hlen] at hi
  by_cases hip : i < p
  · have h1 : i < (xs.take p ++ fatia ys p q).length := by omega
    have h2 : i < (xs.take p).length := by omega
    rw [getD_append_esq h1, getD_append_esq h2, getD_take_lt hip]
    exact hxm i hi
  by_cases hiq : i < q
  · have h1 : i < (xs.take p ++ fatia ys p q).length := by omega
    have h2 : (xs.take p).length ≤ i := by omega
    rw [getD_append_esq h1, getD_append_dir h2, htake]
    have h3 : i - p < q - p := by omega
    rw [fatia, getD_take_lt h3, getD_drop_mais, Nat.add_sub_cancel' (by omega : p ≤ i)]
    exact hym i (by omega)
  · have h1 : (xs.take p ++ fatia ys p q).length ≤ i := by omega
    rw [getD_append_dir h1, hAB, getD_drop_mais, Nat.add_sub_cancel' (by omega : q ≤ i)]
    exact hxm i hi

theorem cruzamento_ponto_unico_valido {pessoas : List Pessoa} {pai1 pai2 : Cromossomo}
    (h1 : cromossomoValido pessoas pai1) (h2 : cromossomoValido pessoas pai2)
    (ponto_corte : Nat) :
    filhosValidos pessoas (cruzamento_ponto_unico pai1 pai2 ponto_corte) := by
  have hN : pai1.voos_ida.length = pessoas.length := by simpa using h1.1.1
  simp only [cruzamento_ponto_unico]
  by_cases h0 : pai1.voos_ida.length = 0
  · rw [if_pos h0]
    exact ⟨vazio_valido (by omega), vazio_valido (by omega)⟩
  rw [if_neg h0]
  by_cases hum : pai1.voos_ida.length = 1
  · rw [if_pos hum]; trivial
  rw [if_neg hum]
  exact ⟨⟨corte_valido h1.1 h2.1 ponto_corte, corte_valido h1.2 h2.2 ponto_corte⟩,
         ⟨corte_valido h2.1 h1.1 ponto_corte, corte_valido h2.2 h1.2 ponto_corte⟩⟩

theorem cruzamento_dois_pontos_valido {pessoas : List Pessoa} {pai1 pai2 : Cromossomo}
    (h1 : cromossomoValido pessoas pai1) (h2 : cromossomoValido pessoas pai2)
    (o : CruzOraculo)
    (ho : 3 ≤ pai1.voos_ida.length →
      1 ≤ o.ponto1 ∧ o.ponto1 < o.ponto2 ∧ o.ponto2 ≤ pai1.voos_ida.length - 1) :
    filhosValidos pessoas (cruzamento_dois_pontos pai1 pai2 o) := by
  have hNi1 : pai1.voos_ida.length = pessoas.length := by simpa using h1.1.1
  have hNv1 : pai1.voos_volta.length = pessoas.length := by simpa using h1.2.1
  have hNi2 : pai2.voos_ida.length = pessoas.length := by simpa using h2.1.1
  have hNv2 : pai2.voos_volta.length = pessoas.length := by simpa using h2.2.1
  simp only [cruzamento_dois_pontos]
  by_cases h3 : pai1.voos_ida.length < 3
  · rw [if_pos h3]; exact cruzamento_ponto_unico_valido h1 h2 o.ponto_corte
  rw [if_neg h3]
  obtain ⟨hp1, hp12, hp2⟩ := ho (by omega)
  exact ⟨⟨corte2_valido h1.1 h2.1 (by omega) (by omega),
          corte2_valido h1.2 h2.2 (by omega) (by omega)⟩,
         ⟨corte2_valido h2.1 h1.1 (by omega) (by omega),
          corte2_valido h2.2 h1.2 (by omega) (by omega)⟩⟩

theorem escolheUniforme_spec (a b : List Voo) (moedas : Nat → ℚ) :
    ∀ (n i : Nat) (l1 l2 : List Voo), escolheUniforme a b moedas i n = some (l1, l2) →
      l1.length = n ∧ l2.length = n ∧
      ∀ j, j < n →
        ((l1.getD j vooPadrao = a.getD (i+j) vooPadrao ∧
          l2.getD j vooPadrao = b.getD (i+j) vooPadrao) ∨
         (l1.getD j vooPadrao = b.getD (i+j) vooPadrao ∧
          l2.getD j vooPadrao = a.getD (i+j) vooPadrao)) := by
  intro n
  induction n with
  | zero =>
      intro i l1 l2 h
      obtain ⟨e1, e2⟩ : ([] : List Voo) = l1 ∧ ([] : List Voo) = l2 := by
        unfold escolheUniforme at h
        exact ⟨congrArg Prod.fst (Option.some.inj h),
               congrArg Prod.snd (Option.some.inj h)⟩
      subst e1; subst e2
      exact ⟨rfl, rfl, fun j hj => absurd hj (Nat.not_lt_zero j)⟩
  | succ n ih =>
      intro i l1 l2 h
      unfold escolheUniforme at h
      cases hx : a[i]? with
      | none => rw [hx] at h; exact absurd h (by simp)
      | some x =>
        cases hy : b[i]? with
        | none => rw [hx, hy] at h; exact absurd h (by simp)
        | some y =>
          rw [hx, hy] at h
          cases hr : escolheUniforme a b moedas (i+1) n with
          | none => rw [hr] at h; exact absurd h (by simp)
          | some pr =>
            obtain ⟨r1, r2⟩ := pr
            rw [hr] at h
            obtain ⟨hl1, hl2, hgenes⟩ := ih (i+1) r1 r2 hr
            have hxa : a.getD i vooPadrao = x := getD_de_getElem? hx vooPadrao
            have hyb : b.getD i vooPadrao = y := getD_de_getElem? hy vooPadrao
            have hpair : (l1, l2) = if moedas i < mkRat 1 2 then (x :: r1, y :: r2)
                else (y :: r1, x :: r2) := (Option.some.inj h).symm
            by_cases hm : moedas i < mkRat 1 2
            · rw [if_pos hm] at hpair
              obtain ⟨e1, e2⟩ := Prod.mk.injEq .. ▸ hpair
              subst e1; subst e2
              refine ⟨by simp [hl1], by simp [hl2], fun j hj => ?_⟩
              cases j with
              | zero =>
                  exact Or.inl ⟨by simpa using hxa.symm, by simpa using hyb.symm⟩
              | succ j =>
                  have hmat := hgenes j (by omega)
                  have heq : i + 1 + j = i + (j + 1) := by omega
                  rw [heq] at hmat
                  simpa using hmat
            · rw [if_neg hm] at hpair
              obtain ⟨e1, e2⟩ := Prod.mk.injEq .. ▸ hpair
              subst e1; subst e2
              refine ⟨by simp [hl1], by simp [hl2], fun j hj => ?_⟩
              cases j with
              | zero =>
                  exact Or.inr ⟨by simpa using hyb.symm, by simpa using hxa.symm⟩
              | succ j =>
                  have hmat := hgenes j (by omega)
                  have heq : i + 1 + j = i + (j + 1) := by omega
                  rw [heq] at hmat
                  simpa using hmat

theorem uniformeParte_valida {menus : List (List Voo)}
    {xs ys l1 l2 : List Voo} (moedas : Nat → ℚ)
    (hx : escolhasDoMenu menus xs) (hy : escolhasDoMenu menus ys) {n : Nat}
    (hn : n = xs.length)
    (h : escolheUniforme xs ys moedas 0 n = some (l1, l2)) :
    escolhasDoMenu menus l1 ∧ escolhasDoMenu menus l2 := by
  obtain ⟨hl1, hl2, hgenes⟩ := escolheUniforme_spec xs ys moedas n 0 l1 l2 h
  constructor
  · refine escolhasDoMenu_mistura hx hy (by omega) (fun i hi => ?_)
    rcases hgenes i (by omega) with ⟨ha, _⟩ | ⟨ha, _⟩
    · left; simpa using ha
    · right; simpa using ha
  · have hxl := hx.1
    have hyl := hy.1
    refine escolhasDoMenu_mistura hy hx (by omega) (fun i hi => ?_)
    rcases hgenes i (by omega) with ⟨_, hb⟩ | ⟨_, hb⟩
    · left; simpa using hb
    · right; simpa using hb

theorem cruzamento_uniforme_valido {pessoas : List Pessoa} {pai1 pai2 : Cromossomo}
    (h1 : cromossomoValido pessoas pai1) (h2 : cromossomoValido pessoas pai2)
    (moedas : Nat → ℚ) :
    filhosValidos pessoas (cruzamento_uniforme pai1 pai2 moedas) := by
  have hNi1 : pai1.voos_ida.length = pessoas.length := by simpa using h1.1.1
  have hNv1 : pai1.voos_volta.length = pessoas.length := by simpa using h1.2.1
  simp only [cruzamento_uniforme]
  by_cases h0 : pai1.voos_ida.length = 0
  · rw [if_pos h0]
    exact ⟨vazio_valido (by omega), vazio_valido (by omega)⟩
  rw [if_neg h0]
  cases hu1 : escolheUniforme pai1.voos_ida pai2.voos_ida moedas 0 pai1.voos_ida.length with
  | none => trivial
  | some pr1 =>
    obtain ⟨i1, i2⟩ := pr1
    cases hu2 : escolheUniforme pai1.voos_volta pai2.voos_volta moedas 0
        pai1.voos_ida.length with
    | none => trivial
    | some pr2 =>
      obtain ⟨v1, v2⟩ := pr2
      obtain ⟨hvi1, hvi2⟩ := uniformeParte_valida moedas h1.1 h2.1 rfl hu1
      obtain ⟨hvv1, hvv2⟩ := uniformeParte_valida moedas h1.2 h2.2
        (by omega) hu2
      exact ⟨⟨hvi1, hvv1⟩, ⟨hvi2, hvv2⟩⟩

theorem baratoParte_valida {menus : List (List Voo)}
    {xs ys l1 l2 : List Voo}
    (hx : escolhasDoMenu menus xs) (hy : escolhasDoMenu menus ys) {n : Nat}
    (hn : n = xs.length)
    (h : escolheBarato xs ys 0 n = some (l1, l2)) :
    escolhasDoMenu menus l1 ∧ escolhasDoMenu menus l2 := by
  obtain ⟨hl1, hl2, hgenes⟩ := escolheBarato_spec xs ys n 0 l1 l2 h
  constructor
  · refine escolhasDoMenu_mistura hx hy (by omega) (fun i hi => ?_)
    rcases (hgenes i (by omega)).2 with ⟨ha, _⟩ | ⟨ha, _⟩
    · left; simpa using ha
    · right; simpa using ha
  · have hxl := hx.1
    have hyl := hy.1
    refine escolhasDoMenu_mistura hy hx (by omega) (fun i hi => ?_)
    rcases (hgenes i (by omega)).2 with ⟨_, hb⟩ | ⟨_, hb⟩
    · left; simpa using hb
    · right; simpa using hb

theorem cruzamento_custo_valido {pessoas : List Pessoa} {pai1 pai2 : Cromossomo}
    (h1 : cromossomoValido pessoas pai1) (h2 : cromossomoValido pessoas pai2) :
    filhosValidos pessoas (cruzamento_baseado_custo pai1 pai2) := by
  have hNi1 : pai1.voos_ida.length = pessoas.length := by simpa using h1.1.1
  have hNv1 : pai1.voos_volta.length = pessoas.length := by simpa using h1.2.1
  simp only [cruzamento_baseado_custo]
  by_cases h0 : pai1.voos_ida.length = 0
  · rw [if_pos h0]
    exact ⟨vazio_valido (by omega), vazio_valido (by omega)⟩
  rw [if_neg h0]
  cases hu1 : escolheBarato pai1.voos_ida pai2.voos_ida 0 pai1.voos_ida.length with
  | none => trivial
  | some pr1 =>
    obtain ⟨i1, i2⟩ := pr1
    cases hu2 : escolheBarato pai1.voos_volta pai2.voos_volta 0 pai1.voos_ida.length with
    | none => trivial
    | some pr2 =>
      obtain ⟨v1, v2⟩ := pr2
      obtain ⟨hvi1, hvi2⟩ := baratoParte_valida h1.1 h2.1 rfl hu1
      obtain ⟨hvv1, hvv2⟩ := baratoParte_valida h1.2 h2.2 (by omega) hu2
      exact ⟨⟨hvi1, hvv1⟩, ⟨hvi2, hvv2⟩⟩

theorem cruzamento_horario_valido {pessoas : List Pessoa} {pai1 pai2 : Cromossomo}
    (h1 : cromossomoValido pessoas pai1) (h2 : cromossomoValido pessoas pai2)
    (moedas : Nat → ℚ) :
    filhosValidos pessoas (cruzamento_baseado_horario pai1 pai2 moedas) := by
  have hNi1 : pai1.voos_ida.length = pessoas.length := by simpa using h1.1.1
  have hNv1 : pai1.voos_volta.length = pessoas.length := by simpa using h1.2.1
  simp only [cruzamento_baseado_horario]
  by_cases h0 : pai1.voos_ida.length = 0
  · rw [if_pos h0]
    exact ⟨vazio_valido (by omega), vazio_valido (by omega)⟩
  rw [if_neg h0]
  by_cases hfb : pai1.voos_ida.map Voo.horario_chegada = [] ∨
      pai2.voos_ida.map Voo.horario_chegada = []
  · rw [if_pos hfb]; exact cruzamento_uniforme_valido h1 h2 moedas
  rw [if_neg hfb]
  cases hu : escolheUniforme pai1.voos_volta pai2.voos_volta moedas 0
      pai1.voos_ida.length with
  | none =>
      by_cases hsp : divQ ((listMax (pai1.voos_ida.map Voo.horario_chegada) -
          listMin (pai1.voos_ida.map Voo.horario_chegada) : Int) : ℚ) 3600 ≤
          divQ ((listMax (pai2.voos_ida.map Voo.horario_chegada) -
          listMin (pai2.voos_ida.map Voo.horario_chegada) : Int) : ℚ) 3600
      · rw [if_pos hsp]; trivial
      · rw [if_neg hsp]; trivial
  | some pr =>
    obtain ⟨v1, v2⟩ := pr
    obtain ⟨hvv1, hvv2⟩ := uniformeParte_valida moedas h1.2 h2.2
      (by omega) hu
    by_cases hsp : divQ ((listMax (pai1.voos_ida.map Voo.horario_chegada) -
        listMin (pai1.voos_ida.map Voo.horario_chegada) : Int) : ℚ) 3600 ≤
        divQ ((listMax (pai2.voos_ida.map Voo.horario_chegada) -
        listMin (pai2.voos_ida.map Voo.horario_chegada) : Int) : ℚ) 3600
    · rw [if_pos hsp]
      exact ⟨⟨h1.1, hvv1⟩, ⟨h2.1, hvv2⟩⟩
    · rw [if_neg hsp]
      exact ⟨⟨h2.1, hvv1⟩, ⟨h1.1, hvv2⟩⟩

/-- CLAIM C1 (confirmed).  For parents satisfying the data-model
invariant (one gene per person, from the right person's menu for the
right leg), every pair of children any of the five crossover strategies
produces satisfies it as well: gene counts equal the number of people
and there is no cross-agent or cross-leg contamination.  The oracle
hypothesis restricts the cut points to the ranges `random.randint` /
`random.sample` can actually produce. -/
theorem c1_cruzamentos_validos (pessoas : List Pessoa) (tipo : TipoCruzamento)
    (o : CruzOraculo) (pai1 pai2 : Cromossomo)
    (h1 : cromossomoValido pessoas pai1) (h2 : cromossomoValido pessoas pai2)
    (ho : oraculoCruzamentoOK tipo o pai1.voos_ida.length) :
    filhosValidos pessoas (cruzamento tipo pai1 pai2 o) := by
  cases tipo with
  | ponto_unico => exact cruzamento_ponto_unico_valido h1 h2 o.ponto_corte
  | dois_pontos => exact cruzamento_dois_pontos_valido h1 h2 o ho.2
  | uniforme => exact cruzamento_uniforme_valido h1 h2 o.moedas
  | custo => exact cruzamento_custo_valido h1 h2
  | horario => exact cruzamento_horario_valido h1 h2 o.moedas

/-- Witness for `c1_cruzamentos_validos`: single-point crossover of two
concrete valid parents over two people. -/
theorem c1_cruzamentos_validos_witness :
    cromossomoValido pessoasMut paiW1 ∧ cromossomoValido pessoasMut paiW2 ∧
    oraculoCruzamentoOK TipoCruzamento.ponto_unico cruzPadrao paiW1.voos_ida.length ∧
    filhosValidos pessoasMut (cruzamento TipoCruzamento.ponto_unico paiW1 paiW2 cruzPadrao) :=
  ⟨by decide, by decide, by decide,
   c1_cruzamentos_validos pessoasMut TipoCruzamento.ponto_unico cruzPadrao paiW1 paiW2
     (by decide) (by decide) (by decide)⟩

/-! ### Sorting, best-of-population and elitism (claim C2) -/

theorem ordenaDesc_max : ∀ (l : List Cromossomo), l ≠ [] →
    ∃ m resto, ordenaDesc l = m :: resto ∧ m ∈ l ∧ ∀ y ∈ l, y.fitness ≤ m.fitness := by
  intro l
  induction l with
  | nil => intro h; exact absurd rfl h
  | cons x xs ih =>
      intro _
      by_cases hxs : xs = []
      · subst hxs
        refine ⟨x, [], rfl, List.mem_singleton_self x, fun y hy => ?_⟩
        rw [List.mem_singleton.mp hy]
      · obtain ⟨m, resto, hord, hmem, hmax⟩ := ih hxs
        have hstep : ordenaDesc (x :: xs) = insereDesc x (ordenaDesc xs) := rfl
        by_cases hxm : x.fitness ≤ m.fitness
        · refine ⟨m, insereDesc x resto, ?_, List.mem_cons_of_mem x hmem, ?_⟩
          · rw [hstep, hord]; simp only [insereDesc, if_pos hxm]
          · intro y hy
            rcases List.mem_cons.mp hy with h | h
            · rw [h]; exact hxm
            · exact hmax y h
        · refine ⟨x, m :: resto, ?_, List.mem_cons_self x xs, ?_⟩
          · rw [hstep, hord]; simp only [insereDesc, if_neg hxm]
          · intro y hy
            rcases List.mem_cons.mp hy with h | h
            · rw [h]
            · exact le_trans (hmax y h) (le_of_lt (lt_of_not_le hxm))

theorem foldl_melhor_spec (ys : List Cromossomo) : ∀ x : Cromossomo,
    (ys.foldl escolheMelhor x = x ∨ ys.foldl escolheMelhor x ∈ ys) ∧
    x.fitness ≤ (ys.foldl escolheMelhor x).fitness ∧
    ∀ c ∈ ys, c.fitness ≤ (ys.foldl escolheMelhor x).fitness := by
  induction ys with
  | nil =>
      intro x
      exact ⟨Or.inl rfl, le_rfl, fun c hc => absurd hc (List.not_mem_nil c)⟩
  | cons y ys ih =>
      intro x
      by_cases hxy : x.fitness < y.fitness
      · have hred : (y :: ys).foldl escolheMelhor x = ys.foldl escolheMelhor y := by
          simp only [List.foldl_cons, escolheMelhor, if_pos hxy]
        obtain ⟨hm, hy', hall⟩ := ih y
        rw [hred]
        refine ⟨?_, le_trans (le_of_lt hxy) hy', fun c hc => ?_⟩
        · rcases hm with h | h
          · rw [h]; exact Or.inr (List.mem_cons_self y ys)
          · exact Or.inr (List.mem_cons_of_mem y h)
        · rcases List.mem_cons.mp hc with h | h
          · rw [h]; exact hy'
          · exact hall c h
      · have hred : (y :: ys).foldl escolheMelhor x = ys.foldl escolheMelhor x := by
          simp only [List.foldl_cons, escolheMelhor, if_neg hxy]
        obtain ⟨hm, hx', hall⟩ := ih x
        rw [hred]
        refine ⟨?_, hx', fun c hc => ?_⟩
        · rcases hm with h | h
          · exact Or.inl h
          · exact Or.inr (List.mem_cons_of_mem y h)
        · rcases List.mem_cons.mp hc with h | h
          · rw [h]; exact le_trans (le_of_not_lt hxy) hx'
          · exact hall c h

theorem melhor_spec {l : List Cromossomo} (h : l ≠ []) :
    ∃ b, melhorCromossomo l = some b ∧ b ∈ l ∧ ∀ c ∈ l, c.fitness ≤ b.fitness := by
  cases l with
  | nil => exact absurd rfl h
  | cons x xs =>
      obtain ⟨hm, hx, hall⟩ := foldl_melhor_spec xs x
      refine ⟨xs.foldl escolheMelhor x, rfl, ?_, fun c hc => ?_⟩
      · rcases hm with h' | h'
        · rw [h']; exact List.mem_cons_self x xs
        · exact List.mem_cons_of_mem x h'
      · rcases List.mem_cons.mp hc with h' | h'
        · rw [h']; exact hx
        · exact hall c h'

theorem fitness_le_melhor {l : List Cromossomo} {c : Cromossomo} (hc : c ∈ l) :
    c.fitness ≤ melhorFitness l := by
  have hne : l ≠ [] := by
    intro h; subst h; exact absurd hc (List.not_mem_nil c)
  obtain ⟨b, hb, _, hmax⟩ := melhor_spec hne
  unfold melhorFitness
  rw [hb]
  exact hmax c hc

theorem melhorFitness_le {l : List Cromossomo} (hne : l ≠ []) {q : ℚ}
    (hq : ∀ c ∈ l, c.fitness ≤ q) : melhorFitness l ≤ q := by
  obtain ⟨b, hb, hmem, _⟩ := melhor_spec hne
  unfold melhorFitness
  rw [hb]
  exact hq b hmem

theorem map_pontofixo {α : Type} {f : α → α} : ∀ {l : List α}, l.map f = l → ∀ x ∈ l, f x = x := by
  intro l
  induction l with
  | nil => intro _ x hx; exact absurd hx (List.not_mem_nil x)
  | cons y ys ih =>
      intro h x hx
      have h' := h
      rw [List.map_cons] at h'
      injection h' with h1 h2
      rcases List.mem_cons.mp hx with h'' | h''
      · rw [h'']; exact h1
      · exact ih h2 x h''

theorem evoluirLaco_prefixo (ag : AlgoritmoGenetico) (tipo : TipoCruzamento)
    (umi : Bool) (orac : Nat → IterOraculo) (pop : List Cromossomo) :
    ∀ (fuel it : Nat) (nova out : List Cromossomo),
      evoluirLaco ag tipo umi orac pop fuel it nova = some out →
      ∃ resto, out = nova ++ resto := by
  intro fuel
  induction fuel with
  | zero =>
      intro it nova out h
      exact ⟨[], by simpa using (Option.some.inj h).symm⟩
  | succ fuel ih =>
      intro it nova out h
      unfold evoluirLaco at h
      by_cases hlen : nova.length < ag.tamanho_populacao
      swap
      · rw [if_neg hlen] at h
        exact ⟨[], by simpa using (Option.some.inj h).symm⟩
      rw [if_pos hlen] at h
      cases h1 : selecao_torneio pop (orac it).s1 with
      | none =>
          rw [h1] at h
          exact ⟨[], by simpa using (Option.some.inj h).symm⟩
      | some pai1 =>
          cases h2 : selecao_torneio pop (orac it).s2 with
          | none =>
              rw [h1, h2] at h
              exact ⟨[], by simpa using (Option.some.inj h).symm⟩
          | some pai2 =>
              rw [h1, h2] at h
              simp only [] at h
              cases h3 : (if pai1 = pai2 ∧ 1 < pop.length then selecao_torneio pop (orac it).s2b
                          else some pai2) with
              | none => rw [h3] at h; exact absurd h (by simp)
              | some pai2' =>
                  rw [h3] at h
                  simp only [] at h
                  cases h4 : cruzamento tipo pai1 pai2' (orac it).cz with
                  | none => rw [h4] at h; exact absurd h (by simp)
                  | some par =>
                      obtain ⟨f1, f2⟩ := par
                      rw [h4] at h
                      simp only [] at h
                      cases h5 : (if umi then
                          mutacao_inteligente ag.taxa_mutacao ag.pessoas (orac it).m1 f1
                        else mutacao_tradicional ag.taxa_mutacao ag.pessoas (orac it).m1 f1) with
                      | none => rw [h5] at h; exact absurd h (by simp)
                      | some f1' =>
                          rw [h5] at h
                          simp only [] at h
                          cases h6 : (if umi then
                              mutacao_inteligente ag.taxa_mutacao ag.pessoas (orac it).m2 f2
                            else mutacao_tradicional ag.taxa_mutacao ag.pessoas (orac it).m2 f2) with
                          | none => rw [h6] at h; exact absurd h (by simp)
                          | some f2' =>
                              rw [h6] at h
                              simp only [] at h
                              obtain ⟨r, hr⟩ := ih (it+1) (nova ++ [f1', f2']) out h
                              exact ⟨[f1', f2'] ++ r, by rw [hr, List.append_assoc]⟩

theorem elitismo (ag : AlgoritmoGenetico) (tipo : TipoCruzamento) (umi : Bool)
    (orac : Nat → IterOraculo) {pop newpop : List Cromossomo}
    (hne : pop ≠ []) (hav : avaliar_populacao ag pop = pop)
    (hel : 1 ≤ elite_size ag) (htam : 1 ≤ ag.tamanho_populacao)
    (h : evoluir_geracao ag tipo umi orac pop = some newpop) :
    melhorFitness pop ≤ melhorFitness (avaliar_populacao ag newpop) := by
  obtain ⟨m, resto, hord, hmem, hmax⟩ := ordenaDesc_max pop hne
  simp only [evoluir_geracao] at h
  cases hL : evoluirLaco ag tipo umi orac (ordenaDesc pop) ag.tamanho_populacao 0
      ((ordenaDesc pop).take (elite_size ag)) with
  | none => rw [hL] at h; exact absurd h (by simp)
  | some out =>
      rw [hL] at h
      have hnew : newpop = out.take ag.tamanho_populacao := (Option.some.inj h).symm
      obtain ⟨rest, hout⟩ := evoluirLaco_prefixo ag tipo umi orac (ordenaDesc pop) _ _ _ _ hL
      have hnova : (ordenaDesc pop).take (elite_size ag) =
          m :: resto.take (elite_size ag - 1) := by
        rw [hord]
        cases hes : elite_size ag with
        | zero => exact absurd hel (by rw [hes]; omega)
        | succ k => simp [List.take_succ_cons]
      have hout' : out = m :: (resto.take (elite_size ag - 1) ++ rest) := by
        rw [hout, hnova]; rfl
      have hm_new : m ∈ newpop := by
        rw [hnew, hout']
        cases ht : ag.tamanho_populacao with
        | zero => exact absurd htam (by rw [ht]; omega)
        | succ t => rw [List.take_succ_cons]; exact List.mem_cons_self _ _
      have hcalc : calcular_fitness ag m = m.fitness := by
        have hfix := map_pontofixo hav m hmem
        exact congrArg Cromossomo.fitness hfix
      have hmemA : ({ m with fitness := calcular_fitness ag m } : Cromossomo) ∈
          avaliar_populacao ag newpop :=
        List.mem_map_of_mem _ hm_new
      have h1 : melhorFitness pop ≤ m.fitness := melhorFitness_le hne hmax
      have h2 : m.fitness ≤ melhorFitness (avaliar_populacao ag newpop) := by
        have h3 : ({ m with fitness := calcular_fitness ag m } : Cromossomo).fitness =
            m.fitness := hcalc
        exact h3 ▸ fitness_le_melhor hmemA
      exact le_trans h1 h2

/-- CLAIM C2, counterexample.  The claim's hypotheses (`taxa_elite > 0`,
population size ≥ 1) hold for `agC2` (`taxa_elite = 1/20`, size 2), yet
`int(taxa_elite * tamanho_populacao)` truncates to zero elites, so an
always-worsening mutation makes the next generation's best fitness drop
from `-150` to `-1050`. -/
theorem c2_contra :
    0 < agC2.taxa_elite ∧ 1 ≤ agC2.tamanho_populacao ∧
    avaliar_populacao agC2 popC2 = popC2 ∧
    evoluir_geracao agC2 TipoCruzamento.uniforme false (fun _ => iterCaro) popC2 =
      some [cCaroCru, cCaroCru] ∧
    melhorFitness (avaliar_populacao agC2 [cCaroCru, cCaroCru]) < melhorFitness popC2 := by
  decide

/-- CLAIM C2 (corrected).  The elitism invariant holds only when the
truncated elite count `int(taxa_elite * tamanho_populacao)` is at least 1
(not merely `taxa_elite > 0`): for an evaluated nonempty population with
at least one elite slot and population size ≥ 1, the best fitness after
one `evoluir_geracao` step (re-evaluated, as `executar` does) is at least
the best fitness before it. -/
theorem c2_elitismo_preserva_melhor (ag : AlgoritmoGenetico) (tipo : TipoCruzamento)
    (umi : Bool) (orac : Nat → IterOraculo) {pop newpop : List Cromossomo}
    (hne : pop ≠ []) (hav : avaliar_populacao ag pop = pop)
    (hel : 1 ≤ elite_size ag) (htam : 1 ≤ ag.tamanho_populacao)
    (h : evoluir_geracao ag tipo umi orac pop = some newpop) :
    melhorFitness pop ≤ melhorFitness (avaliar_populacao ag newpop) :=
  elitismo ag tipo umi orac hne hav hel htam h

/-- Witness for `c2_elitismo_preserva_melhor` on the concrete
configuration `agW2` with full elitism. -/
theorem c2_elitismo_preserva_melhor_witness :
    popW2 ≠ [] ∧ avaliar_populacao agW2 popW2 = popW2 ∧ 1 ≤ elite_size agW2 ∧
    1 ≤ agW2.tamanho_populacao ∧
    evoluir_geracao agW2 TipoCruzamento.uniforme false (fun _ => iterCaro) popW2 =
      some novaPopW2 ∧
    melhorFitness popW2 ≤ melhorFitness (avaliar_populacao agW2 novaPopW2) :=
  ⟨by decide, by decide, by decide, by decide, by decide,
   c2_elitismo_preserva_melhor agW2 TipoCruzamento.uniforme false (fun _ => iterCaro)
     (by decide) (by decide) (by decide) (by decide) (by decide)⟩

/-! ### The stagnation counter of the generation loop (claim C3) -/

theorem executarLaco_sem_limite (ag : AlgoritmoGenetico) (tipo : TipoCruzamento)
    (umi : Bool) (orac : ExecOraculo) :
    ∀ (fuel ger : Nat) (pop : List Cromossomo) (melhor : Option ℚ) (sem : Nat)
      (hf hc : List ℚ) (saida : LacoSaida),
      ((melhor = none ∧ sem = 0) ∨ sem < ag.geracoes_sem_melhoria_max) →
      executarLaco ag tipo umi orac fuel ger pop melhor sem hf hc = some saida →
      saida.geracoes_sem_melhoria ≤ ag.geracoes_sem_melhoria_max := by
  intro fuel
  induction fuel with
  | zero =>
      intro ger pop melhor sem hf hc saida hP h
      have hs : saida = ⟨pop, melhor, sem, hf, hc⟩ := (Option.some.inj h).symm
      subst hs
      show sem ≤ ag.geracoes_sem_melhoria_max
      rcases hP with ⟨_, h0⟩ | hlt
      · omega
      · omega
  | succ fuel ih =>
      intro ger pop melhor sem hf hc saida hP h
      simp only [executarLaco] at h
      cases hm : melhorCromossomo (avaliar_populacao ag pop) with
      | none => rw [hm] at h; exact absurd h (by simp)
      | some mc =>
          rw [hm] at h
          simp only [] at h
          by_cases hMel : melhorou mc.fitness melhor = true
          · simp only [if_pos hMel] at h
            by_cases hcrit : criterio_parada_avancado (hf ++ [mc.fitness]) 20
                (mkRat 1 1000) = true
            · rw [if_pos hcrit] at h
              have hs : saida = ⟨avaliar_populacao ag pop, some mc.fitness, 0,
                  hf ++ [mc.fitness], hc ++ [custoTotal mc]⟩ := (Option.some.inj h).symm
              subst hs
              exact Nat.zero_le _
            · rw [if_neg hcrit] at h
              by_cases hstop : ag.geracoes_sem_melhoria_max ≤ 0
              · rw [if_pos hstop] at h
                have hs : saida = ⟨avaliar_populacao ag pop, some mc.fitness, 0,
                    hf ++ [mc.fitness], hc ++ [custoTotal mc]⟩ := (Option.some.inj h).symm
                subst hs
                exact Nat.zero_le _
              · rw [if_neg hstop] at h
                cases hEv : evoluir_geracao ag tipo umi (orac.evo ger)
                    (avaliar_populacao ag pop) with
                | none => rw [hEv] at h; exact absurd h (by simp)
                | some pop' =>
                    rw [hEv] at h
                    exact ih _ _ _ _ _ _ _ (Or.inr (by omega)) h
          · simp only [if_neg hMel] at h
            have hlt : sem < ag.geracoes_sem_melhoria_max := by
              rcases hP with ⟨hmn, _⟩ | hlt
              · exact absurd (show melhorou mc.fitness melhor = true by rw [hmn]; rfl) hMel
              · exact hlt
            by_cases hcrit : criterio_parada_avancado (hf ++ [mc.fitness]) 20
                (mkRat 1 1000) = true
            · rw [if_pos hcrit] at h
              have hs : saida = ⟨avaliar_populacao ag pop, melhor, sem + 1,
                  hf ++ [mc.fitness], hc ++ [custoTotal mc]⟩ := (Option.some.inj h).symm
              subst hs
              show sem + 1 ≤ ag.geracoes_sem_melhoria_max
              omega
            · rw [if_neg hcrit] at h
              by_cases hstop : ag.geracoes_sem_melhoria_max ≤ sem + 1
              · rw [if_pos hstop] at h
                have hs : saida = ⟨avaliar_populacao ag pop, melhor, sem + 1,
                    hf ++ [mc.fitness], hc ++ [custoTotal mc]⟩ := (Option.some.inj h).symm
                subst hs
                show sem + 1 ≤ ag.geracoes_sem_melhoria_max
                omega
              · rw [if_neg hstop] at h
                cases hEv : evoluir_geracao ag tipo umi (orac.evo ger)
                    (avaliar_populacao ag pop) with
                | none => rw [hEv] at h; exact absurd h (by simp)
                | some pop' =>
                    rw [hEv] at h
                    exact ih _ _ _ _ _ _ _ (Or.inr (by omega)) h

/-- CLAIM C3, counterexample.  With `agC3` every generation's best fitness
is the constant `-150` and the stagnation limit is 40, yet the run halts
after 20 generations with the no-improvement counter at 19: the
convergence window (`janela = 20` of `criterio_parada_avancado`) preempts
the stagnation rule, so the Driver does *not* halt exactly
`geracoes_sem_melhoria_max` generations after the last improvement. -/
theorem c3_contra :
    executar agC3 100 TipoCruzamento.uniforme false oracNada = some resC3 ∧
    resC3.historico_fitness = List.replicate 20 (-150) ∧
    resC3.geracoes_sem_melhoria = 19 ∧
    agC3.geracoes_sem_melhoria_max = 40 := by
  set_option maxRecDepth 40000 in decide

/-- CLAIM C3 (corrected).  The stagnation rule only bounds the counter:
whenever `executar` returns a result, the engine's final no-improvement
counter is at most `geracoes_sem_melhoria_max` (the loop can stop earlier
— the statistical-convergence window fires first on long plateaus — but
never later). -/
theorem c3_parada_limite (ag : AlgoritmoGenetico) (maxg : Nat) (tipo : TipoCruzamento)
    (umi : Bool) (orac : ExecOraculo) (res : ExecResultado)
    (h : executar ag maxg tipo umi orac = some res) :
    res.geracoes_sem_melhoria ≤ ag.geracoes_sem_melhoria_max := by
  unfold executar at h
  by_cases hpe : ag.pessoas = []
  · rw [if_pos hpe] at h
    have hs : res = ⟨none, [], [], 0⟩ := (Option.some.inj h).symm
    subst hs
    exact Nat.zero_le _
  rw [if_neg hpe] at h
  cases hg : gerar_populacao_inicial ag orac.gerIda orac.gerVolta with
  | none =>
      rw [hg] at h
      have hs : res = ⟨none, [], [], 0⟩ := (Option.some.inj h).symm
      subst hs
      exact Nat.zero_le _
  | some pop0 =>
      rw [hg] at h
      simp only [] at h
      cases hL : executarLaco ag tipo umi orac maxg 0 pop0 none 0 [] [] with
      | none => rw [hL] at h; exact absurd h (by simp)
      | some saida =>
          rw [hL] at h
          simp only [] at h
          cases hB : melhorCromossomo (avaliar_populacao ag saida.populacao) with
          | none => rw [hB] at h; exact absurd h (by simp)
          | some bs =>
              rw [hB] at h
              have hs : res = ⟨some bs, saida.historico_fitness, saida.historico_custo,
                  saida.geracoes_sem_melhoria⟩ := (Option.some.inj h).symm
              subst hs
              exact executarLaco_sem_limite ag tipo umi orac maxg 0 pop0 none 0 [] []
                saida (Or.inl ⟨rfl, rfl⟩) hL

/-- Witness for `c3_parada_limite`: a one-generation run of the C3
configuration ends with counter 0 ≤ 40. -/
theorem c3_parada_limite_witness :
    executar agC3 1 TipoCruzamento.uniforme false oracNada = some resW3 ∧
    resW3.geracoes_sem_melhoria ≤ agC3.geracoes_sem_melhoria_max :=
  ⟨by decide,
   c3_parada_limite agC3 1 TipoCruzamento.uniforme false oracNada resW3 (by decide)⟩

/-! ### The returned best candidate and the histories (claim C7) -/

theorem avaliar_idem (ag : AlgoritmoGenetico) (pop : List Cromossomo) :
    avaliar_populacao ag (avaliar_populacao ag pop) = avaliar_populacao ag pop := by
  unfold avaliar_populacao
  rw [List.map_map]
  exact List.map_congr_left (fun c _ => rfl)

theorem melhorFitness_eq {l : List Cromossomo} {b : Cromossomo}
    (h : melhorCromossomo l = some b) : melhorFitness l = b.fitness := by
  unfold melhorFitness
  rw [h]
  rfl

theorem melhorCromossomo_some_ne {l : List Cromossomo} {b : Cromossomo}
    (h : melhorCromossomo l = some b) : l ≠ [] := by
  intro he
  subst he
  exact Option.noConfusion h

theorem executarLaco_historico (ag : AlgoritmoGenetico) (tipo : TipoCruzamento)
    (umi : Bool) (orac : ExecOraculo)
    (hel : 1 ≤ elite_size ag) (htam : 1 ≤ ag.tamanho_populacao) :
    ∀ (fuel ger : Nat) (pop : List Cromossomo) (melhor : Option ℚ) (sem : Nat)
      (hf hc : List ℚ) (saida : LacoSaida),
      (∀ q ∈ hf, q ≤ melhorFitness (avaliar_populacao ag pop)) →
      hf.length = hc.length →
      executarLaco ag tipo umi orac fuel ger pop melhor sem hf hc = some saida →
      (∀ q ∈ saida.historico_fitness,
        q ≤ melhorFitness (avaliar_populacao ag saida.populacao)) ∧
      saida.historico_fitness.length = saida.historico_custo.length ∧
      saida.historico_fitness.length ≤ hf.length + fuel := by
  intro fuel
  induction fuel with
  | zero =>
      intro ger pop melhor sem hf hc saida hhist hlen h
      have hs : saida = ⟨pop, melhor, sem, hf, hc⟩ := (Option.some.inj h).symm
      subst hs
      exact ⟨hhist, hlen, Nat.le_refl _⟩
  | succ fuel ih =>
      intro ger pop melhor sem hf hc saida hhist hlen h
      simp only [executarLaco] at h
      cases hm : melhorCromossomo (avaliar_populacao ag pop) with
      | none => rw [hm] at h; exact absurd h (by simp)
      | some mc =>
          rw [hm] at h
          simp only [] at h
          have hfit : mc.fitness = melhorFitness (avaliar_populacao ag pop) :=
            (melhorFitness_eq hm).symm
          have hhist' : ∀ q ∈ hf ++ [mc.fitness],
              q ≤ melhorFitness (avaliar_populacao ag pop) := by
            intro q hq
            rcases List.mem_append.mp hq with hq | hq
            · exact hhist q hq
            · rw [List.mem_singleton.mp hq, hfit]
          have hterm : ∀ m' s',
              (⟨avaliar_populacao ag pop, m', s', hf ++ [mc.fitness],
                hc ++ [custoTotal mc]⟩ : LacoSaida) = saida →
              (∀ q ∈ saida.historico_fitness,
                q ≤ melhorFitness (avaliar_populacao ag saida.populacao)) ∧
              saida.historico_fitness.length = saida.historico_custo.length ∧
              saida.historico_fitness.length ≤ hf.length + (fuel + 1) := by
            intro m' s' hs
            subst hs
            refine ⟨?_, ?_, ?_⟩
            · intro q hq
              rw [avaliar_idem]
              exact hhist' q hq
            · simp [hlen]
            · simp
          have hcont : ∀ pop', evoluir_geracao ag tipo umi (orac.evo ger)
                (avaliar_populacao ag pop) = some pop' →
              ∀ m' s', executarLaco ag tipo umi orac fuel (ger+1) pop' m' s'
                (hf ++ [mc.fitness]) (hc ++ [custoTotal mc]) = some saida →
              (∀ q ∈ saida.historico_fitness,
                q ≤ melhorFitness (avaliar_populacao ag saida.populacao)) ∧
              saida.historico_fitness.length = saida.historico_custo.length ∧
              saida.historico_fitness.length ≤ hf.length + (fuel + 1) := by
            intro pop' hEv m' s' hrec
            have hsalto : melhorFitness (avaliar_populacao ag pop) ≤
                melhorFitness (avaliar_populacao ag pop') :=
              elitismo ag tipo umi (orac.evo ger) (melhorCromossomo_some_ne hm)
                (avaliar_idem ag pop) hel htam hEv
            have hhist'' : ∀ q ∈ hf ++ [mc.fitness],
                q ≤ melhorFitness (avaliar_populacao ag pop') :=
              fun q hq => le_trans (hhist' q hq) hsalto
            obtain ⟨h1, h2, h3⟩ := ih (ger+1) pop' m' s' (hf ++ [mc.fitness])
              (hc ++ [custoTotal mc]) saida hhist'' (by simp [hlen]) hrec
            refine ⟨h1, h2, le_trans h3 ?_⟩
            simp only [List.length_append, List.length_singleton]
            omega
          by_cases hMel : melhorou mc.fitness melhor = true
          · simp only [if_pos hMel] at h
            by_cases hcrit : criterio_parada_avancado (hf ++ [mc.fitness]) 20
                (mkRat 1 1000) = true
            · rw [if_pos hcrit] at h
              exact hterm _ _ (Option.some.inj h)
            · rw [if_neg hcrit] at h
              by_cases hstop : ag.geracoes_sem_melhoria_max ≤ 0
              · rw [if_pos hstop] at h
                exact hterm _ _ (Option.some.inj h)
              · rw [if_neg hstop] at h
                cases hEv : evoluir_geracao ag tipo umi (orac.evo ger)
                    (avaliar_populacao ag pop) with
                | none => rw [hEv] at h; exact absurd h (by simp)
                | some pop' =>
                    rw [hEv] at h
                    exact hcont pop' hEv _ _ h
          · simp only [if_neg hMel] at h
            by_cases hcrit : criterio_parada_avancado (hf ++ [mc.fitness]) 20
                (mkRat 1 1000) = true
            · rw [if_pos hcrit] at h
              exact hterm _ _ (Option.some.inj h)
            · rw [if_neg hcrit] at h
              by_cases hstop : ag.geracoes_sem_melhoria_max ≤ sem + 1
              · rw [if_pos hstop] at h
                exact hterm _ _ (Option.some.inj h)
              · rw [if_neg hstop] at h
                cases hEv : evoluir_geracao ag tipo umi (orac.evo ger)
                    (avaliar_populacao ag pop) with
                | none => rw [hEv] at h; exact absurd h (by simp)
                | some pop' =>
                    rw [hEv] at h
                    exact hcont pop' hEv _ _ h

/-- CLAIM C7, counterexample.  With zero elites (`agC7`) and an
always-worsening mutation, the run's history is `[-150, -1050]` but the
returned candidate — the best of the *final* population only — has
fitness `-1050`, which is smaller than the history entry `-150`: the
returned candidate is not the best found over the whole run. -/
theorem c7_contra :
    executar agC7 2 TipoCruzamento.uniforme false oracCaro = some resC7 ∧
    resC7.historico_fitness = [-150, -1050] ∧
    (resC7.melhor.map Cromossomo.fitness).getD 0 = -1050 ∧
    ¬ melhorDominaHistorico resC7 := by
  decide

/-- CLAIM C7 (corrected).  The returned candidate is only guaranteed to
dominate the whole fitness history when the elite count is at least 1
(with zero elites the final population may be worse than earlier ones).
Under `elite_size ≥ 1` and population size ≥ 1, every completed run
returns equal-length fitness and cost histories, at most one entry per
generation of the ceiling, and a final candidate whose fitness is ≥ every
history entry. -/
theorem c7_resultado_final (ag : AlgoritmoGenetico) (maxg : Nat) (tipo : TipoCruzamento)
    (umi : Bool) (orac : ExecOraculo) (res : ExecResultado)
    (hel : 1 ≤ elite_size ag) (htam : 1 ≤ ag.tamanho_populacao)
    (h : executar ag maxg tipo umi orac = some res) :
    res.historico_fitness.length = res.historico_custo.length ∧
    res.historico_fitness.length ≤ maxg ∧
    melhorDominaHistorico res := by
  unfold executar at h
  by_cases hpe : ag.pessoas = []
  · rw [if_pos hpe] at h
    have hs : res = ⟨none, [], [], 0⟩ := (Option.some.inj h).symm
    subst hs
    exact ⟨rfl, Nat.zero_le _, trivial⟩
  rw [if_neg hpe] at h
  cases hg : gerar_populacao_inicial ag orac.gerIda orac.gerVolta with
  | none =>
      rw [hg] at h
      have hs : res = ⟨none, [], [], 0⟩ := (Option.some.inj h).symm
      subst hs
      exact ⟨rfl, Nat.zero_le _, trivial⟩
  | some pop0 =>
      rw [hg] at h
      simp only [] at h
      cases hL : executarLaco ag tipo umi orac maxg 0 pop0 none 0 [] [] with
      | none => rw [hL] at h; exact absurd h (by simp)
      | some saida =>
          rw [hL] at h
          simp only [] at h
          cases hB : melhorCromossomo (avaliar_populacao ag saida.populacao) with
          | none => rw [hB] at h; exact absurd h (by simp)
          | some bs =>
              rw [hB] at h
              have hs : res = ⟨some bs, saida.historico_fitness, saida.historico_custo,
                  saida.geracoes_sem_melhoria⟩ := (Option.some.inj h).symm
              subst hs
              obtain ⟨h1, h2, h3⟩ := executarLaco_historico ag tipo umi orac hel htam
                maxg 0 pop0 none 0 [] [] saida (fun q hq => absurd hq (List.not_mem_nil q))
                rfl hL
              refine ⟨h2, by simpa using h3, ?_⟩
              intro q hq
              rw [← melhorFitness_eq hB]
              exact h1 q hq

/-- Witness for `c7_resultado_final`: the one-generation run `resW7` with
one elite slot. -/
theorem c7_resultado_final_witness :
    1 ≤ elite_size agW7 ∧ 1 ≤ agW7.tamanho_populacao ∧
    executar agW7 1 TipoCruzamento.uniforme false oracCaro = some resW7 ∧
    (resW7.historico_fitness.length = resW7.historico_custo.length ∧
     resW7.historico_fitness.length ≤ 1 ∧ melhorDominaHistorico resW7) :=
  ⟨by decide, by decide, by decide,
   c7_resultado_final agW7 1 TipoCruzamento.uniforme false oracCaro resW7
     (by decide) (by decide) (by decide)⟩

/-! ### Configuration errors at population seeding (claim C9) -/

theorem escolheVoosIniciais_falha (fIda fVolta : Nat → Nat) :
    ∀ (ps : List Pessoa) (j i : Nat), j < ps.length →
      ((ps.getD j pessoaPadrao).voos_ida = [] ∨ (ps.getD j pessoaPadrao).voos_volta = []) →
      escolheVoosIniciais fIda fVolta i ps = none := by
  intro ps
  induction ps with
  | nil => intro j i hj _; exact absurd hj (by simp)
  | cons p resto ih =>
      intro j i hj hbad
      cases j with
      | zero =>
          unfold escolheVoosIniciais
          rcases hbad with hb | hb
          · rw [if_pos (by simpa using hb)]
          · by_cases hida : p.voos_ida = []
            · rw [if_pos hida]
            · rw [if_neg hida, if_pos (by simpa using hb)]
      | succ j =>
          unfold escolheVoosIniciais
          by_cases hida : p.voos_ida = []
          · rw [if_pos hida]
          · by_cases hvolta : p.voos_volta = []
            · rw [if_neg hida, if_pos hvolta]
            · rw [if_neg hida, if_neg hvolta,
                ih j (i+1) (by simpa using hj) (by simpa using hbad)]

theorem gerarLaco_falha (pessoas : List Pessoa) (fIda fVolta : Nat → Nat → Nat) (j : Nat)
    (hj : j < pessoas.length)
    (hbad : (pessoas.getD j pessoaPadrao).voos_ida = [] ∨
      (pessoas.getD j pessoaPadrao).voos_volta = []) :
    ∀ (g n : Nat), 1 ≤ n → gerarLaco pessoas fIda fVolta g n = none := by
  intro g n h1
  cases n with
  | zero => exact absurd h1 (by omega)
  | succ n =>
      unfold gerarLaco
      rw [escolheVoosIniciais_falha (fIda g) (fVolta g) pessoas j 0 hj hbad]

/-- CLAIM C9, counterexample.  `agC9` has a person with an empty outbound
menu, yet with population size 0 the seeding loop body never runs:
`gerar_populacao_inicial` returns the empty population instead of
raising, so the run is not aborted at seeding.  `executar` then crashes
later (modelled `none`) on `max` of the empty population, instead of
returning the no-solution result. -/
theorem c9_contra :
    agC9.pessoas ≠ [] ∧ (agC9.pessoas.getD 0 pessoaPadrao).voos_ida = [] ∧
    gerar_populacao_inicial agC9 oracNada.gerIda oracNada.gerVolta = some [] ∧
    executar agC9 10 TipoCruzamento.uniforme false oracNada = none := by
  decide

/-- CLAIM C9 (corrected).  The seeding abort is guaranteed when either no
people are supplied, or the population size is at least 1 and some person
has an empty outbound or return menu: then `gerar_populacao_inicial`
raises (`none`, so no partial population is ever produced) and `executar`
returns the no-solution result with empty histories.  (With population
size 0 the bad menus are never read — see the counterexample.) -/
theorem c9_configuracao_aborta (ag : AlgoritmoGenetico) (maxg : Nat)
    (tipo : TipoCruzamento) (umi : Bool) (orac : ExecOraculo) (j : Nat)
    (h : ag.pessoas = [] ∨ (1 ≤ ag.tamanho_populacao ∧ j < ag.pessoas.length ∧
      ((ag.pessoas.getD j pessoaPadrao).voos_ida = [] ∨
       (ag.pessoas.getD j pessoaPadrao).voos_volta = []))) :
    gerar_populacao_inicial ag orac.gerIda orac.gerVolta = none ∧
    executar ag maxg tipo umi orac = some ⟨none, [], [], 0⟩ := by
  have hger : gerar_populacao_inicial ag orac.gerIda orac.gerVolta = none := by
    unfold gerar_populacao_inicial
    by_cases hpe : ag.pessoas = []
    · rw [if_pos hpe]
    · rw [if_neg hpe]
      rcases h with hpe' | ⟨htam, hj, hbad⟩
      · exact absurd hpe' hpe
      · exact gerarLaco_falha ag.pessoas orac.gerIda orac.gerVolta j hj hbad 0
          ag.tamanho_populacao htam
  refine ⟨hger, ?_⟩
  unfold executar
  by_cases hpe : ag.pessoas = []
  · rw [if_pos hpe]
  · rw [if_neg hpe, hger]

/-- Witness for `c9_configuracao_aborta`: `agW9` has population size 1 and
a person with an empty outbound menu. -/
theorem c9_configuracao_aborta_witness :
    (agW9.pessoas = [] ∨ (1 ≤ agW9.tamanho_populacao ∧ 0 < agW9.pessoas.length ∧
      ((agW9.pessoas.getD 0 pessoaPadrao).voos_ida = [] ∨
       (agW9.pessoas.getD 0 pessoaPadrao).voos_volta = []))) ∧
    gerar_populacao_inicial agW9 oracNada.gerIda oracNada.gerVolta = none ∧
    executar agW9 10 TipoCruzamento.uniforme false oracNada = some ⟨none, [], [], 0⟩ :=
  ⟨by decide,
   c9_configuracao_aborta agW9 10 TipoCruzamento.uniforme false oracNada 0 (by decide)⟩

end Conclave
